import Mathlib

/-!
Shallow embedding of three source files of the n8n repository:

* `packages/cli/src/workflows/workflow.service.ts` (`WorkflowService`):
  `update`, `delete`, `findPinnedTrigger`, `saveStaticData`;
* the Compression node (`Compression.execute`);
* the `CreateExecutionMetadataTable1674133106777` migration.

External library calls (fflate codecs, `mime-types`, TypeORM, hooks,
`ActiveWorkflowRunner`, helper modules that are not part of the supplied
sources) are modelled as parameters of an environment record; every effectful
call of the service is recorded as an event in an explicit trace, and the
workflow table of the database is threaded as explicit state.
-/

namespace N8n

/-! ### JavaScript-value primitives

Small executable models of the JavaScript behaviours the sources rely on:
dynamic values with truthiness, object key lookup/assignment,
`String.prototype.split`/`trim`/`toLowerCase`/`includes`, and decimal
rendering of numbers used by template literals. -/

/-- A primitive JavaScript value. -/
inductive JsPrim where
  | undefined : JsPrim
  | null : JsPrim
  | bool (b : Bool) : JsPrim
  | num (n : Int) : JsPrim
  | str (s : String) : JsPrim
deriving Repr, DecidableEq

/-- A JavaScript value, as far as the modelled code inspects one: a
primitive, or one level of array/object (the code never looks deeper than
one level into the dynamic values it handles). -/
inductive JsVal where
  | prim (p : JsPrim) : JsVal
  | arr (elems : List JsPrim) : JsVal
  | obj (fields : List (String × JsPrim)) : JsVal
deriving Repr, DecidableEq

/-- Shorthand for primitive `undefined`. -/
def JsVal.undefined : JsVal := .prim .undefined

/-- Shorthand for a primitive boolean. -/
def JsVal.bool (b : Bool) : JsVal := .prim (.bool b)

/-- Shorthand for a primitive number. -/
def JsVal.num (n : Int) : JsVal := .prim (.num n)

/-- Shorthand for a primitive string. -/
def JsVal.str (s : String) : JsVal := .prim (.str s)

/-- JavaScript truthiness: `undefined`, `null`, `false`, `0`, and the empty
string are falsy; every array and object is truthy. -/
def JsVal.truthy : JsVal → Bool
  | .prim .undefined => false
  | .prim .null => false
  | .prim (.bool b) => b
  | .prim (.num n) => n != 0
  | .prim (.str s) => s != ""
  | .arr _ => true
  | .obj _ => true

/-- Property read `o[k]` on an object represented as an association list in
insertion order; a missing key reads as `undefined`. -/
def jsGet (o : List (String × JsVal)) (k : String) : JsVal :=
  match o.find? (fun p => p.1 == k) with
  | some p => p.2
  | none => .undefined

/-- Property write `o[k] = v`: replaces the value in place when the key
exists (JavaScript keeps the original insertion position), appends
otherwise. Generic in the value type so binary-data objects reuse it. -/
def jsAssign {α : Type} (o : List (String × α)) (k : String) (v : α) :
    List (String × α) :=
  if o.any (fun p => p.1 == k) then
    o.map (fun p => if p.1 == k then (k, v) else p)
  else
    o ++ [(k, v)]

/-- Key lookup on a generic association-list object (first match). -/
def jsFind {α : Type} (o : List (String × α)) (k : String) : Option α :=
  match o.find? (fun p => p.1 == k) with
  | some p => some p.2
  | none => none

/-- `String.prototype.split` with a single-character separator:
accumulates the current segment and cuts at each separator. -/
def jsSplitCharAux (sep : Char) : List Char → List Char → List String
  | [], acc => [String.mk acc.reverse]
  | c :: rest, acc =>
    if c = sep then String.mk acc.reverse :: jsSplitCharAux sep rest []
    else jsSplitCharAux sep rest (c :: acc)

/-- `s.split(sep)` for a one-character separator, as used with `','` and
`'.'` in the sources; `"".split(sep) = [""]`. -/
def jsSplitChar (sep : Char) (s : String) : List String :=
  jsSplitCharAux sep s.data []

/-- The whitespace characters `String.prototype.trim` strips (the ones
relevant to comma-separated field lists). -/
def jsIsSpace (c : Char) : Bool :=
  c = ' ' || c = '\t' || c = '\n' || c = '\r'

/-- `s.trim()`. -/
def jsTrim (s : String) : String :=
  String.mk (((s.data.dropWhile jsIsSpace).reverse.dropWhile jsIsSpace).reverse)

/-- ASCII lowering of one character, the fragment of
`String.prototype.toLowerCase` exercised by the sources. -/
def asciiLower (c : Char) : Char :=
  if 'A' ≤ c && c ≤ 'Z' then Char.ofNat (c.toNat + 32) else c

/-- `s.toLowerCase()` on ASCII text. -/
def jsToLower (s : String) : String :=
  String.mk (s.data.map asciiLower)

/-- Boolean prefix test on lists (helper for the substring test). -/
def listStartsWith : List Char → List Char → Bool
  | [], _ => true
  | _ :: _, [] => false
  | a :: as, b :: bs => a == b && listStartsWith as bs

/-- Boolean infix test on lists (helper for `String.prototype.includes`). -/
def listHasInfix (pat : List Char) : List Char → Bool
  | [] => listStartsWith pat []
  | c :: rest => listStartsWith pat (c :: rest) || listHasInfix pat rest

/-- `s.includes(pat)`. -/
def jsIncludes (s pat : String) : Bool :=
  listHasInfix pat.data s.data

/-- String interpolation of a possibly-`undefined` value, as in a template
literal: `undefined` renders as the text `"undefined"`. -/
def optInterp : Option String → String
  | some s => s
  | none => "undefined"

/-- Decimal digits of `n`, most significant first, with explicit fuel so
that the definition is structural and kernel-evaluable. -/
def decStrCore : Nat → Nat → List Char
  | 0, _ => []
  | fuel + 1, n =>
    if n = 0 then [] else decStrCore fuel (n / 10) ++ [Nat.digitChar (n % 10)]

/-- Decimal rendering of a natural number, the JavaScript template-literal
text of a non-negative integer such as `` `${index}` ``. -/
def decStr (n : Nat) : String :=
  if n = 0 then "0" else String.mk (decStrCore (n + 1) n)

/-- Reads a digit string back as a number (used only to prove that decimal
rendering is injective). -/
def decVal (cs : List Char) : Nat :=
  cs.foldl (fun a c => a * 10 + (c.toNat - 48)) 0

theorem decVal_append_digit (xs : List Char) (c : Char) :
    decVal (xs ++ [c]) = decVal xs * 10 + (c.toNat - 48) := by
  simp [decVal, List.foldl_append]

theorem digitChar_toNat {d : Nat} (hd : d < 10) :
    (Nat.digitChar d).toNat = 48 + d := by
  interval_cases d <;> rfl

theorem decVal_decStrCore :
    ∀ (fuel n : Nat), n < 10 ^ fuel → decVal (decStrCore fuel n) = n := by
  intro fuel
  induction fuel with
  | zero =>
    intro n hn
    simp [decStrCore, decVal]
    omega
  | succ fuel ih =>
    intro n hn
    by_cases h0 : n = 0
    · simp [decStrCore, h0, decVal]
    · have hdiv : n / 10 < 10 ^ fuel := by
        rw [Nat.div_lt_iff_lt_mul (by norm_num)]
        calc n < 10 ^ (fuel + 1) := hn
        _ = 10 ^ fuel * 10 := by ring
      have hmod : n % 10 < 10 := Nat.mod_lt _ (by norm_num)
      rw [decStrCore]
      simp only [h0, if_false]
      rw [decVal_append_digit, ih _ hdiv, digitChar_toNat hmod]
      omega

theorem decVal_decStr_data (n : Nat) : decVal (decStr n).data = n := by
  by_cases h0 : n = 0
  · subst h0; rfl
  · have hlt : n < 10 ^ (n + 1) := by
      calc n < 10 ^ n := Nat.lt_pow_self (by norm_num) n
      _ ≤ 10 ^ (n + 1) := Nat.pow_le_pow_right (by norm_num) (Nat.le_succ n)
    simp only [decStr, h0, if_false]
    exact decVal_decStrCore (n + 1) n hlt

theorem decStr_injective : Function.Injective decStr := by
  intro a b h
  have : decVal (decStr a).data = decVal (decStr b).data := by rw [h]
  rwa [decVal_decStr_data, decVal_decStr_data] at this

theorem decStr_append_left_injective (p : String) {a b : Nat}
    (h : p ++ decStr a = p ++ decStr b) : a = b := by
  have hdata : (p ++ decStr a).data = (p ++ decStr b).data := by rw [h]
  rw [String.data_append, String.data_append] at hdata
  have := List.append_cancel_left hdata
  exact decStr_injective (String.ext this)

/-! ### Compression node

Model of `Compression.execute`. The fflate codecs (`gzip`, `gunzip`,
`unzip`, `zip`), `mime.extension` and the mime-type/extension inference
performed by `this.helpers.prepareBinaryData` are external libraries, kept
abstract as fields of `CompressionLib`. Binary buffers are byte lists. -/

/-- The metadata-plus-buffer view of one binary field of an item
(`assertBinaryData` returns the metadata, `getBinaryDataBuffer` the
buffer; the model keeps them together). -/
structure BinFile where
  fileName : Option String
  fileExtension : Option String
  mimeType : String
  buffer : List Nat
deriving Repr, DecidableEq

/-- One `INodeExecutionData` item. An absent `binary` key is modelled as
the empty object. -/
structure Item where
  json : JsVal
  binary : List (String × BinFile)
  pairedItem : Option Nat
deriving Repr, DecidableEq

/-- The node parameters read via `getNodeParameter` (all read at item
index 0, hence constant across items). `outputPrefixParam` is the
node's `outputPrefix` parameter. -/
structure CompressionParams where
  operation : String
  binaryPropertyName : String
  outputFormat : String
  fileName : String
  binaryPropertyOutput : String
  outputPrefixParam : String
deriving Repr, DecidableEq

/-- The external codec and mime libraries used by the node. `unzipF`
returns the archive entries in the order `Object.keys` enumerates them;
`mimeExtension` returns `none` where `mime.extension` returns `false`;
`prepareMime`/`prepareExt` are the inferences `prepareBinaryData` makes
from the file name it is given. -/
structure CompressionLib where
  gzipF : List Nat → List Nat
  gunzipF : List Nat → List Nat
  unzipF : List Nat → List (String × List Nat)
  zipF : List (String × (List Nat × Nat)) → List Nat
  prepareMime : Option String → String
  prepareExt : Option String → Option String
  mimeExtension : String → Option String

/-- `this.helpers.prepareBinaryData(buffer, fileName)`. -/
def prepareBinaryData (lib : CompressionLib) (buf : List Nat)
    (fileName : Option String) : BinFile :=
  { fileName := fileName
    fileExtension := lib.prepareExt fileName
    mimeType := lib.prepareMime fileName
    buffer := buf }

/-- Rendering of `mime.extension(...) as string` inside a template
literal: the `false` return prints as `"false"`. -/
def mimeExtInterp : Option String → String
  | some s => s
  | none => "false"

/-- The `ALREADY_COMPRESSED` extension list of the node. -/
def alreadyCompressed : List String :=
  ["7z", "aifc", "bz2", "doc", "docx", "gif", "gz", "heic", "heif", "jpg",
   "jpeg", "mov", "mp3", "mp4", "pdf", "png", "ppt", "pptx", "rar", "webm",
   "webp", "xls", "xlsx", "zip"]

/-- `binaryPropertyName.split(',').map(key => key.trim())`. -/
def splitBinaryNames (raw : String) : List String :=
  (jsSplitChar ',' raw).map jsTrim

/-- One iteration of the decompress loop body for the input binary field
`name` at position `index`; the accumulator carries `zipIndex` and
`binaryObject`. A field whose (lower-cased) extension is neither `zip`
nor `gz` falls through both branches and leaves the accumulator as is. -/
def decompressStep (lib : CompressionLib) (outputPrefixParam : String)
    (item : Item) (acc : Nat × List (String × BinFile)) (index : Nat)
    (name : String) : Except String (Nat × List (String × BinFile)) :=
  match jsFind item.binary name with
  | none =>
    .error ("This operation expects the node's input data to contain a binary file, but none was found [" ++ name ++ "]")
  | some binaryData =>
    if binaryData.fileExtension.map jsToLower == some "zip" then
      let files := lib.unzipF binaryData.buffer
      .ok (files.foldl (fun st kv =>
        if jsIncludes kv.1 "__MACOSX" then st
        else (st.1 + 1,
              jsAssign st.2 (outputPrefixParam ++ decStr st.1)
                (prepareBinaryData lib kv.2 (some kv.1)))) acc)
    else if binaryData.fileExtension.map jsToLower == some "gz" then
      let file := lib.gunzipF binaryData.buffer
      let fileName := binaryData.fileName.map (fun s => (jsSplitChar '.' s).headD "")
      let propertyName := outputPrefixParam ++ decStr index
      let d0 := prepareBinaryData lib file fileName
      let fileExtension := lib.mimeExtension d0.mimeType
      let d := { d0 with
                  fileName := some (optInterp fileName ++ "." ++ mimeExtInterp fileExtension)
                  fileExtension := fileExtension }
      .ok (acc.1, jsAssign acc.2 propertyName d)
    else
      .ok acc

/-- Runs a loop body over the binary field names with their positions,
stopping at the first thrown error. -/
def foldSteps {σ : Type} (f : σ → Nat → String → Except String σ) :
    σ → Nat → List String → Except String σ
  | acc, _, [] => .ok acc
  | acc, idx, n :: rest =>
    match f acc idx n with
    | .ok acc2 => foldSteps f acc2 (idx + 1) rest
    | .error e => .error e

/-- The `operation === 'decompress'` body for one item. -/
def decompressItem (lib : CompressionLib) (params : CompressionParams)
    (i : Nat) (item : Item) : Except String (List Item) :=
  let binaryPropertyNames := splitBinaryNames params.binaryPropertyName
  match foldSteps (decompressStep lib params.outputPrefixParam item) (0, []) 0
      binaryPropertyNames with
  | .error e => .error e
  | .ok acc => .ok [{ json := item.json, binary := acc.2, pairedItem := some i }]

/-- One iteration of the compress loop body; the accumulator carries
`zipData` and `binaryObject`. -/
def compressStep (lib : CompressionLib) (params : CompressionParams)
    (item : Item)
    (acc : List (String × (List Nat × Nat)) × List (String × BinFile))
    (index : Nat) (name : String) :
    Except String (List (String × (List Nat × Nat)) × List (String × BinFile)) :=
  match jsFind item.binary name with
  | none =>
    .error ("This operation expects the node's input data to contain a binary file, but none was found [" ++ name ++ "]")
  | some binaryData =>
    if params.outputFormat == "zip" then
      let level :=
        if (match binaryData.fileExtension with
            | some e => alreadyCompressed.contains e
            | none => false) then 0 else 6
      .ok (jsAssign acc.1 (optInterp binaryData.fileName)
            (binaryData.buffer, level), acc.2)
    else if params.outputFormat == "gzip" then
      let data := lib.gzipF binaryData.buffer
      let fileName := binaryData.fileName.map (fun s => (jsSplitChar '.' s).headD "")
      .ok (acc.1,
           jsAssign acc.2 (params.outputPrefixParam ++ decStr index)
             (prepareBinaryData lib data (some (optInterp fileName ++ ".gzip"))))
    else
      .ok acc

/-- The `operation === 'compress'` body for one item: the loop over the
input binary fields followed by the per-format push to `returnData`.
A format that is neither `zip` nor `gzip` pushes nothing. -/
def compressItem (lib : CompressionLib) (params : CompressionParams)
    (i : Nat) (item : Item) : Except String (List Item) :=
  let binaryPropertyNames := splitBinaryNames params.binaryPropertyName
  match foldSteps (compressStep lib params item) ([], []) 0
      binaryPropertyNames with
  | .error e => .error e
  | .ok acc =>
    let pushZip : List Item :=
      if params.outputFormat == "zip" then
        let buffer := lib.zipF acc.1
        let data := prepareBinaryData lib buffer (some params.fileName)
        [{ json := item.json
           binary := [(params.binaryPropertyOutput, data)]
           pairedItem := some i }]
      else []
    let pushGzip : List Item :=
      if params.outputFormat == "gzip" then
        [{ json := item.json, binary := acc.2, pairedItem := some i }]
      else []
    .ok (pushZip ++ pushGzip)

/-- The items one input item contributes to `returnData` (zero, one, or —
for an unknown operation — none). -/
def processItem (lib : CompressionLib) (params : CompressionParams) (i : Nat)
    (item : Item) : Except String (List Item) :=
  match (if params.operation == "decompress"
         then decompressItem lib params i item else .ok []) with
  | .error e => .error e
  | .ok d =>
    match (if params.operation == "compress"
           then compressItem lib params i item else .ok []) with
    | .error e => .error e
    | .ok c => .ok (d ++ c)

/-- The item pushed in the `catch` branch when `continueOnFail()` holds. -/
def errorItem (message : String) (i : Nat) : Item :=
  { json := .obj [("error", .str message)], binary := [], pairedItem := some i }

/-- The per-item loop of `execute`, starting at item index `i`. -/
def executeItems (lib : CompressionLib) (params : CompressionParams)
    (continueOnFail : Bool) : Nat → List Item → Except String (List Item)
  | _, [] => .ok []
  | i, item :: rest =>
    match processItem lib params i item with
    | .ok outs =>
      match executeItems lib params continueOnFail (i + 1) rest with
      | .ok tail => .ok (outs ++ tail)
      | .error e => .error e
    | .error e =>
      if continueOnFail then
        match executeItems lib params continueOnFail (i + 1) rest with
        | .ok tail => .ok (errorItem e i :: tail)
        | .error e2 => .error e2
      else
        .error e

/-- `Compression.execute`: runs the per-item loop and returns
`[returnData]`. -/
def Compression.execute (lib : CompressionLib) (params : CompressionParams)
    (continueOnFail : Bool) (items : List Item) :
    Except String (List (List Item)) :=
  match executeItems lib params continueOnFail 0 items with
  | .ok returnData => .ok [returnData]
  | .error e => .error e

/-! ### CreateExecutionMetadataTable migration

The migration's `up`/`down` run raw SQL through the query runner; the model
interprets the two statements as operations on a schema (a list of table
definitions). `executionMetadataTable` transcribes the `CREATE TABLE`
statement column by column. -/

/-- One column of a table definition. -/
structure ColumnDef where
  name : String
  sqlType : String
  primaryKey : Bool
  autoincrement : Bool
  notNull : Bool
deriving Repr, DecidableEq

/-- One foreign-key constraint of a table definition. -/
structure ForeignKeyDef where
  constraintName : String
  column : String
  refTable : String
  refColumn : String
  onDeleteCascade : Bool
deriving Repr, DecidableEq

/-- A table in the schema. -/
structure TableDef where
  name : String
  columns : List ColumnDef
  foreignKeys : List ForeignKeyDef
deriving Repr, DecidableEq

/-- A database schema: the list of its tables. -/
abbrev Schema := List TableDef

/-- The table created by the migration's `CREATE TABLE` statement. -/
def executionMetadataTable (tpfx : String) : TableDef :=
  { name := tpfx ++ "execution_metadata"
    columns :=
      [{ name := "id", sqlType := "INTEGER", primaryKey := true,
         autoincrement := true, notNull := false },
       { name := "executionId", sqlType := "INTEGER", primaryKey := false,
         autoincrement := false, notNull := true },
       { name := "key", sqlType := "TEXT", primaryKey := false,
         autoincrement := false, notNull := false },
       { name := "value", sqlType := "TEXT", primaryKey := false,
         autoincrement := false, notNull := false }]
    foreignKeys :=
      [{ constraintName := tpfx ++ "execution_metadata_entity_FK"
         column := "executionId"
         refTable := tpfx ++ "execution_entity"
         refColumn := "id"
         onDeleteCascade := true }] }

/-- `CreateExecutionMetadataTable1674133106777.up`: executes the single
`CREATE TABLE` statement. -/
def createExecutionMetadataUp (tpfx : String) (s : Schema) : Schema :=
  s ++ [executionMetadataTable tpfx]

/-- `CreateExecutionMetadataTable1674133106777.down`: executes the single
`DROP TABLE` statement. -/
def createExecutionMetadataDown (tpfx : String) (s : Schema) : Schema :=
  s.filter (fun t => t.name ≠ tpfx ++ "execution_metadata")

/-! ### WorkflowService

State-and-trace model of `WorkflowService.update`, `delete`,
`findPinnedTrigger` and `saveStaticData`. Repository lookups, the external
hook bus, the active-workflow registry, the multi-main broadcaster, the
uuid generator and the helper modules that are not part of the supplied
sources appear as environment fields; every effectful call is recorded as
an `Ev` in the returned trace, and the workflow table (`Db`) is the
explicit state the repository calls read and write. -/

/-- A workflow node, with the fields the modelled code touches
(`findPinnedTrigger` reads `name`/`type`/`disabled`; the external
`WorkflowHelpers` touch `id` and `credentials`). -/
structure NodeT where
  name : String
  type : String
  disabled : Bool
  id : Option String
  credentials : List (String × JsVal)
deriving Repr, DecidableEq

/-- `IPinData`: node name to pinned data. -/
abbrev PinData := List (String × JsVal)

/-- Connections, kept as an uninterpreted adjacency list (the modelled
code only passes them through). -/
abbrev Connections := List (String × List String)

/-- A stored workflow row, as loaded from the workflow repository. -/
structure StoredWorkflow where
  name : String
  active : Bool
  versionId : String
  nodes : List NodeT
  connections : Connections
  settings : List (String × JsVal)
  staticData : JsVal
  pinData : PinData
  tags : List String
deriving Repr, DecidableEq

/-- The `SharedWorkflow` row with its `workflow` relation loaded. -/
structure SharedWorkflowRec where
  workflow : StoredWorkflow
deriving Repr, DecidableEq

/-- The incoming `workflow: WorkflowEntity` request object of `update`.
`none` fields are absent own properties; `versionId` is always present on
the request entity (it is compared and reassigned unconditionally).
`extraKeys` lists any further own properties (such as `tags`) that only
matter for the `Object.keys(omit(...))` count. -/
structure WorkflowPatchIn where
  id : Option String
  versionId : String
  active : Option Bool
  name : Option String
  nodes : Option (List NodeT)
  connections : Option Connections
  settings : Option (List (String × JsVal))
  staticData : Option JsVal
  pinData : Option PinData
  extraKeys : List String
deriving Repr, DecidableEq

/-- `Object.keys(omit(workflow, ['id', 'versionId', 'active']))`: the own
properties of the request entity other than the three omitted ones. -/
def WorkflowPatchIn.otherKeys (w : WorkflowPatchIn) : List String :=
  (if w.name.isSome then ["name"] else []) ++
  (if w.nodes.isSome then ["nodes"] else []) ++
  (if w.connections.isSome then ["connections"] else []) ++
  (if w.settings.isSome then ["settings"] else []) ++
  (if w.staticData.isSome then ["staticData"] else []) ++
  (if w.pinData.isSome then ["pinData"] else []) ++
  w.extraKeys

/-- A partial entity passed to `workflowRepository.update` (the result of
`pick`, or the inline rollback object); `none` fields are not written. -/
structure RepoPatch where
  name : Option String
  active : Option Bool
  nodes : Option (List NodeT)
  connections : Option Connections
  settings : Option (List (String × JsVal))
  staticData : Option JsVal
  pinData : Option PinData
  versionId : Option String
deriving Repr, DecidableEq

/-- Applies a partial update to a stored row (`tags` live in a separate
mapping table and are never part of a `RepoPatch`). -/
def applyRepoPatch (s : StoredWorkflow) (p : RepoPatch) : StoredWorkflow :=
  { name := p.name.getD s.name
    active := p.active.getD s.active
    versionId := p.versionId.getD s.versionId
    nodes := p.nodes.getD s.nodes
    connections := p.connections.getD s.connections
    settings := p.settings.getD s.settings
    staticData := p.staticData.getD s.staticData
    pinData := p.pinData.getD s.pinData
    tags := s.tags }

/-- The workflow table: id to row. -/
abbrev Db := List (String × StoredWorkflow)

/-- `workflowRepository.update(id, patch)`: a no-op when no row matches. -/
def dbUpdate (db : Db) (workflowId : String) (p : RepoPatch) : Db :=
  db.map (fun e => if e.1 == workflowId then (e.1, applyRepoPatch e.2 p) else e)

/-- `workflowRepository.findOne({ where: { id } })`. -/
def dbFindOne (db : Db) (workflowId : String) : Option StoredWorkflow :=
  jsFind db workflowId

/-- `workflowRepository.delete(id)`. -/
def dbDelete (db : Db) (workflowId : String) : Db :=
  db.filter (fun e => e.1 != workflowId)

/-- The effectful calls `WorkflowService` makes, in program order. -/
inductive Ev where
  | hookRun (name : String)
  | removeActiveWorkflow (workflowId : String)
  | workflowRepoUpdate (workflowId : String) (patch : RepoPatch)
  | tagMappingDelete (workflowId : String)
  | tagMappingInsert (workflowId : String) (tagIds : List String)
  | saveWorkflowVersion (userId workflowId versionId : String)
  | internalWorkflowSaved (userId workflowId : String)
  | addActiveWorkflow (workflowId mode : String)
  | multiMainInit
  | broadcastActiveState (workflowId : String) (oldState newState : Bool)
      (versionId : String)
  | workflowRepoDelete (workflowId : String)
  | binaryDataDeleteMany (ids : List (String × String))
  | internalWorkflowDeleted (userId workflowId : String)
  | staticDataRepoUpdate (workflowId : String)
      (staticData : List (String × JsVal))
  | errorReported
  | logError (message : String)
deriving Repr, DecidableEq

/-- A thrown JavaScript error as the activation `catch` block inspects it:
a `NodeApiError` (with its optional `description`) or any other error. -/
inductive JsError where
  | nodeApi (description : Option String) (message : String)
  | generic (message : String)
deriving Repr, DecidableEq

/-- The message resolution of the activation `catch` block:
a `NodeApiError`'s `description` when present, else the error's
`message`. -/
def JsError.resolveMessage : JsError → String
  | .nodeApi d m => d.getD m
  | .generic m => m

/-- The errors `update` can throw. `activationFailed` is the
`BadRequestError` of the activation `catch` block; it carries the
`updatedWorkflow` entity as mutated just before the throw
(`updatedWorkflow.active = false`). -/
inductive UpdateError where
  | notFound (message : String)
  | badRequest (message : String) (errorCode : Option Nat)
  | activationFailed (message : String) (returned : StoredWorkflow)
deriving Repr, DecidableEq

/-- Truthiness of a possibly-absent string property (`if (workflow.name)`). -/
def optStrTruthy : Option String → Bool
  | some s => s != ""
  | none => false

/-- The settings keys whose `'DEFAULT'` value is not saved. -/
def keysAllowingDefault : List String :=
  ["timezone", "saveDataErrorExecution", "saveDataSuccessExecution",
   "saveManualExecutions", "saveExecutionProgress"]

/-- The settings cleanup of `update`: drops the `'DEFAULT'` entries of
`keysAllowingDefault` and an `executionTimeout` equal to the configured
default. -/
def cleanWorkflowSettings (timeoutDefault : Int)
    (s : List (String × JsVal)) : List (String × JsVal) :=
  (s.filter (fun kv =>
    !(keysAllowingDefault.contains kv.1 && kv.2 == JsVal.str "DEFAULT"))).filter
    (fun kv => !(kv.1 == "executionTimeout" && kv.2 == JsVal.num timeoutDefault))

/-- The environment of one `update` call: the results and behaviours of
everything outside the supplied source. `shared` is what
`sharedWorkflowRepository.findOne` returns under the permission
`whereClause` (so the `user` and `roles` arguments are folded into it);
`freshUuid` is the `uuid()` draw; the two node transforms are the external
`WorkflowHelpers`; `validationError` is the outcome `validateEntity` would
produce for this entity; `activateHook` and `activeAdd` are the outcomes
of the `'workflow.activate'` hook and of `activeWorkflowRunner.add`. -/
structure UpdateEnv where
  shared : Option SharedWorkflowRec
  freshUuid : String
  replaceInvalidCredentials : List NodeT → List NodeT
  addNodeIds : List NodeT → List NodeT
  workflowTagsDisabled : Bool
  executionsTimeoutDefault : Int
  validationError : Option String
  db : Db
  sortByRequestOrder : List String → List String → List String
  activateHook : Except JsError Unit
  activeAdd : Except JsError Unit
  multiMainEnabled : Bool

/-- The first error the activation `try` block hits, if any. -/
def UpdateEnv.activationResult (env : UpdateEnv) : Except JsError Unit :=
  match env.activateHook with
  | .error e => .error e
  | .ok _ => env.activeAdd

/-- The permission-failure message of `update`. -/
def permissionMessage : String :=
  "You do not have permission to update this workflow. Ask the owner to share it with you."

/-- The optimistic-concurrency conflict message of `update`. -/
def conflictMessage : String :=
  "Your most recent changes may be lost, because someone else just updated this workflow. Open this workflow in a new tab to see those new updates."

/-- The message thrown when the re-fetch after the update finds no row. -/
def notFoundAfterUpdateMessage (workflowId : String) : String :=
  "Workflow with ID \"" ++ workflowId ++ "\" could not be found to be updated."

/-- The partial entity of the activation rollback write:
`{ active: false, versionId: <pre-update versionId> }`. -/
def rollbackPatch (storedVersionId : String) : RepoPatch :=
  { name := none, active := some false, nodes := none, connections := none,
    settings := none, staticData := none, pinData := none,
    versionId := some storedVersionId }

/-- `pick(workflow, ['name', 'active', 'nodes', 'connections', 'settings',
'staticData', 'pinData', 'versionId'])` on the (mutated) request entity. -/
def mainRepoPatch (w : WorkflowPatchIn) : RepoPatch :=
  { name := w.name, active := w.active, nodes := w.nodes,
    connections := w.connections, settings := w.settings,
    staticData := w.staticData, pinData := w.pinData,
    versionId := some w.versionId }

/-- The in-place mutations `update` applies to the request entity before
persisting it: the conditional `versionId` regeneration (an entity with at
least one property besides `id`, `versionId` and `active` gets a fresh
uuid), the node rewrites of `WorkflowHelpers.replaceInvalidCredentials`
and `WorkflowHelpers.addNodeIds`, and the settings cleanup. -/
def updateEffectiveEntity (env : UpdateEnv) (w : WorkflowPatchIn) : WorkflowPatchIn :=
  let w1 := if w.otherKeys.length > 0 then { w with versionId := env.freshUuid } else w
  let w2 := { w1 with
              nodes := w1.nodes.map (fun ns =>
                env.addNodeIds (env.replaceInvalidCredentials ns)) }
  { w2 with
    settings := w2.settings.map
      (cleanWorkflowSettings env.executionsTimeoutDefault) }

/-- The tag-mapping rewrite events of `update` (`delete` then `insert`,
only when `tagIds` was passed and tags are enabled). -/
def tagTrace (env : UpdateEnv) (workflowId : String)
    (tagIds : Option (List String)) : List Ev :=
  match tagIds with
  | some tids =>
    if !env.workflowTagsDisabled then
      [Ev.tagMappingDelete workflowId, Ev.tagMappingInsert workflowId tids]
    else []
  | none => []

/-- The workflow-history save event of `update` (only when the persisted
`versionId` differs from the stored one). -/
def historyTrace (env : UpdateEnv) (userId : String) (w : WorkflowPatchIn)
    (workflowId : String) (shared : SharedWorkflowRec) : List Ev :=
  if (updateEffectiveEntity env w).versionId != shared.workflow.versionId then
    [Ev.saveWorkflowVersion userId workflowId (updateEffectiveEntity env w).versionId]
  else []

/-- The re-fetched entity as `update` returns it: tags are loaded only
when tags are enabled, and are re-sorted into request order when both the
entity and the request carry tags. -/
def refetchAdjusted (env : UpdateEnv) (tagIds : Option (List String))
    (row : StoredWorkflow) : StoredWorkflow :=
  let updated0 := if env.workflowTagsDisabled then { row with tags := [] } else row
  if updated0.tags.length > 0 && (tagIds.getD []).length > 0 then
    { updated0 with
      tags := env.sortByRequestOrder updated0.tags (tagIds.getD []) }
  else updated0

/-- `WorkflowService.update` from the permission check on, given that the
shared-workflow lookup succeeded and the concurrency check passed.
Returns the event trace, the final workflow table, and the result. -/
def updateCore (env : UpdateEnv) (userId : String) (w : WorkflowPatchIn)
    (workflowId : String) (tagIds : Option (List String))
    (shared : SharedWorkflowRec) : List Ev × Db × Except UpdateError StoredWorkflow :=
  let oldState := shared.workflow.active
  let trace1 := [Ev.hookRun "workflow.update"] ++
    (if shared.workflow.active then [Ev.removeActiveWorkflow workflowId] else [])
  let w3 := updateEffectiveEntity env w
  match (if optStrTruthy w3.name then env.validationError else none) with
  | some msg => (trace1, env.db, .error (.badRequest msg none))
  | none =>
    let patch := mainRepoPatch w3
    let db1 := dbUpdate env.db workflowId patch
    let trace2 := trace1 ++ [Ev.workflowRepoUpdate workflowId patch]
    let trace3 := trace2 ++ tagTrace env workflowId tagIds
    let trace4 := trace3 ++ historyTrace env userId w workflowId shared
    match dbFindOne db1 workflowId with
    | none =>
      (trace4, db1, .error (.badRequest (notFoundAfterUpdateMessage workflowId) none))
    | some row =>
      let updated1 := refetchAdjusted env tagIds row
      let trace5 := trace4 ++
        [Ev.hookRun "workflow.afterUpdate", Ev.internalWorkflowSaved userId workflowId]
      if updated1.active then
        match env.activateHook with
        | .error e =>
          let db2 := dbUpdate db1 workflowId (rollbackPatch shared.workflow.versionId)
          let trace6 := trace5 ++
            [Ev.workflowRepoUpdate workflowId (rollbackPatch shared.workflow.versionId)]
          (trace6, db2,
           .error (.activationFailed e.resolveMessage { updated1 with active := false }))
        | .ok _ =>
          let trace6 := trace5 ++ [Ev.hookRun "workflow.activate"]
          match env.activeAdd with
          | .error e =>
            let db2 := dbUpdate db1 workflowId (rollbackPatch shared.workflow.versionId)
            let trace7 := trace6 ++
              [Ev.workflowRepoUpdate workflowId (rollbackPatch shared.workflow.versionId)]
            (trace7, db2,
             .error (.activationFailed e.resolveMessage { updated1 with active := false }))
          | .ok _ =>
            let trace7 := trace6 ++
              [Ev.addActiveWorkflow workflowId
                (if shared.workflow.active then "update" else "activate")]
            let trace8 := trace7 ++ [Ev.multiMainInit] ++
              (if env.multiMainEnabled then
                [Ev.broadcastActiveState workflowId oldState updated1.active
                  shared.workflow.versionId]
               else [])
            (trace8, db1, .ok updated1)
      else
        let trace6 := trace5 ++ [Ev.multiMainInit] ++
          (if env.multiMainEnabled then
            [Ev.broadcastActiveState workflowId oldState updated1.active
              shared.workflow.versionId]
           else [])
        (trace6, db1, .ok updated1)

/-- `WorkflowService.update`: the permission check, the
optimistic-concurrency check, then `updateCore`. -/
def WorkflowService.update (env : UpdateEnv) (userId : String)
    (workflow : WorkflowPatchIn) (workflowId : String)
    (tagIds : Option (List String)) (forceSave : Bool) :
    List Ev × Db × Except UpdateError StoredWorkflow :=
  match env.shared with
  | none => ([], env.db, .error (.notFound permissionMessage))
  | some shared =>
    if !forceSave && workflow.versionId != "" &&
        workflow.versionId != shared.workflow.versionId then
      ([], env.db, .error (.badRequest conflictMessage (some 100)))
    else
      updateCore env userId workflow workflowId tagIds shared

/-- `['trigger', 'webhook'].some(suffix =>
nodeTypeName.toLowerCase().includes(suffix))`. -/
def isTriggerType (nodeTypeName : String) : Bool :=
  ["trigger", "webhook"].any (fun sfx => jsIncludes (jsToLower nodeTypeName) sfx)

/-- The filter of `findPinnedTrigger`: enabled, pinned (truthy entry in
`pinData`), and of a trigger/webhook type. -/
def pinnedTriggerPred (pd : PinData) (node : NodeT) : Bool :=
  !node.disabled && (jsGet pd node.name).truthy && isTriggerType node.type

/-- `WorkflowService.findPinnedTrigger`. `getParentNodes` abstracts the
`Workflow.getParentNodes` graph walk of the external `n8n-workflow`
package. -/
def WorkflowService.findPinnedTrigger (getParentNodes : String → List String)
    (workflow : StoredWorkflow) (startNodes : Option (List String))
    (pinData : Option PinData) : Option NodeT :=
  match pinData, startNodes with
  | none, _ => none
  | some _, none => none
  | some pd, some sns =>
    match workflow.nodes.filter (pinnedTriggerPred pd) with
    | [] => none
    | pt0 :: rest =>
      if sns.length == 0 then some pt0
      else
        let startNodeName := sns.headD ""
        let parentNames := getParentNodes startNodeName
        let checkNodeName : Option String :=
          if parentNames.length == 0 then some startNodeName
          else parentNames.find? (fun pn => pn == pt0.name)
        match checkNodeName with
        | none => none
        | some cn => (pt0 :: rest).find? (fun pt => pt.name == cn)

/-- The environment of one `delete` call: the shared-workflow lookup under
the `workflow:delete` scope with the `owner` role, the workflow table, and
the execution ids `executionRepository.find` returns for this workflow. -/
structure DeleteEnv where
  sharedForDeletion : Option SharedWorkflowRec
  db : Db
  executionIds : List String

/-- `WorkflowService.delete`: pre-hook, permission lookup, deactivation,
row deletion, binary-data deletion, post-hooks. Returns the trace, the
final workflow table, and the returned entity (`none` is `undefined`). -/
def WorkflowService.delete (env : DeleteEnv) (userId workflowId : String) :
    List Ev × Db × Option StoredWorkflow :=
  let trace0 := [Ev.hookRun "workflow.delete"]
  match env.sharedForDeletion with
  | none => (trace0, env.db, none)
  | some sharedWorkflow =>
    let trace1 := trace0 ++
      (if sharedWorkflow.workflow.active then [Ev.removeActiveWorkflow workflowId] else [])
    let idsForDeletion := env.executionIds.map (fun executionId => (workflowId, executionId))
    let db1 := dbDelete env.db workflowId
    let trace2 := trace1 ++
      [Ev.workflowRepoDelete workflowId,
       Ev.binaryDataDeleteMany idsForDeletion,
       Ev.internalWorkflowDeleted userId workflowId,
       Ev.hookRun "workflow.afterDelete"]
    (trace2, db1, some sharedWorkflow.workflow)

/-- The in-memory `Workflow` instance `saveStaticData` receives: its id
and the top level of its static data. -/
structure WorkflowRuntime where
  id : String
  staticData : List (String × JsVal)
deriving Repr, DecidableEq

/-- The environment of one `saveStaticData` call: the external
`isWorkflowIdValid` predicate (from `@/utils`, not part of the supplied
sources) and the outcome of the repository write. -/
structure StaticDataEnv where
  isWorkflowIdValid : String → Bool
  writeResult : Except String Unit

/-- The error text logged when the static-data write fails. -/
def saveStaticDataErrorMessage (workflowId message : String) : String :=
  "There was a problem saving the workflow with id \"" ++ workflowId ++
    "\" to save changed Data: \"" ++ message ++ "\""

/-- `WorkflowService.saveStaticData`: writes only when `__dataChanged` is
strictly `true` and the id is valid; a failed write is reported and logged
but swallowed (the function is total: it never throws). -/
def WorkflowService.saveStaticData (env : StaticDataEnv)
    (workflow : WorkflowRuntime) : List Ev × WorkflowRuntime :=
  if jsGet workflow.staticData "__dataChanged" == JsVal.bool true then
    if env.isWorkflowIdValid workflow.id then
      match env.writeResult with
      | .ok _ =>
        ([Ev.staticDataRepoUpdate workflow.id workflow.staticData],
         { workflow with
           staticData := jsAssign workflow.staticData "__dataChanged" (JsVal.bool false) })
      | .error msg =>
        ([Ev.staticDataRepoUpdate workflow.id workflow.staticData,
          Ev.errorReported,
          Ev.logError (saveStaticDataErrorMessage workflow.id msg)],
         workflow)
    else ([], workflow)
  else ([], workflow)

/-! ### Helper predicates and lemmas -/

/-- Event shape test: a multi-main broadcast. -/
def Ev.isBroadcast : Ev → Bool
  | .broadcastActiveState _ _ _ _ => true
  | _ => false

/-- Event shape test: a write to the workflow repository. -/
def Ev.isWorkflowRepoWrite : Ev → Bool
  | .workflowRepoUpdate _ _ => true
  | .workflowRepoDelete _ => true
  | _ => false

/-- Event shape test: a static-data repository write. -/
def Ev.isStaticDataWrite : Ev → Bool
  | .staticDataRepoUpdate _ _ => true
  | _ => false

/-- Event shape test: a tag-mapping write or a workflow-history save (the
only effects `update` performs between the persist and the post-update
hooks). -/
def Ev.isTagOrHistory : Ev → Bool
  | .tagMappingDelete _ => true
  | .tagMappingInsert _ _ => true
  | .saveWorkflowVersion _ _ _ => true
  | _ => false

/-- Event shape test: a workflow-history save. -/
def Ev.isSaveVersion : Ev → Bool
  | .saveWorkflowVersion _ _ _ => true
  | _ => false

theorem find?_map_replace {α : Type} {o : List (String × α)} {k : String}
    (v : α) (h : o.any (fun p => p.1 == k) = true) :
    (o.map (fun p => if p.1 == k then (k, v) else p)).find?
      (fun p => p.1 == k) = some (k, v) := by
  induction o with
  | nil => simp at h
  | cons p rest ih =>
    by_cases hp : p.1 = k
    · simp [List.find?, hp]
    · have hb : (p.1 == k) = false := by simp [hp]
      have hrest : rest.any (fun q => q.1 == k) = true := by
        simp only [List.any_cons, hb, Bool.false_or] at h
        exact h
      simp only [List.map_cons, hb, Bool.false_eq_true, if_false,
        List.find?_cons, hb]
      exact ih hrest

theorem find?_append_right {α : Type} {p : α → Bool} {l₁ l₂ : List α}
    (h : l₁.find? p = none) : (l₁ ++ l₂).find? p = l₂.find? p := by
  induction l₁ with
  | nil => simp
  | cons a rest ih =>
    by_cases ha : p a
    · rw [List.find?] at h; simp [ha] at h
    · have hb : p a = false := by simp [ha]
      rw [List.find?] at h
      simp only [hb] at h
      simp only [List.cons_append, List.find?, hb]
      exact ih h

theorem any_eq_false_find?_none {α : Type} {p : α → Bool} {l : List α}
    (h : l.any p = false) : l.find? p = none := by
  induction l with
  | nil => rfl
  | cons a rest ih =>
    simp only [List.any_cons, Bool.or_eq_false_iff] at h
    simp only [List.find?, h.1]
    exact ih h.2

theorem jsFind_jsAssign_self {α : Type} (o : List (String × α)) (k : String)
    (v : α) : jsFind (jsAssign o k v) k = some v := by
  unfold jsAssign jsFind
  by_cases h : o.any (fun p => p.1 == k) = true
  · rw [if_pos h, find?_map_replace v h]
  · have hf : o.any (fun p => p.1 == k) = false := by
      cases ha : o.any (fun p => p.1 == k)
      · rfl
      · exact absurd ha h
    rw [if_neg h, find?_append_right (any_eq_false_find?_none hf)]
    simp [List.find?]

theorem jsAssign_mem_of_ne {α : Type} {o : List (String × α)} {key : String}
    {v : α} (h : (key, v) ∈ o) {k2 : String} (hne : key ≠ k2) (v2 : α) :
    (key, v) ∈ jsAssign o k2 v2 := by
  unfold jsAssign
  by_cases ha : o.any (fun p => p.1 == k2) = true
  · rw [if_pos ha]
    refine List.mem_map.mpr ⟨(key, v), h, ?_⟩
    simp [hne]
  · rw [if_neg ha]
    exact List.mem_append_left _ h

theorem jsAssign_mem_inv {α : Type} {o : List (String × α)} {k : String}
    {v : α} {kv : String × α} (h : kv ∈ jsAssign o k v) :
    kv ∈ o ∨ kv.1 = k := by
  unfold jsAssign at h
  by_cases ha : o.any (fun p => p.1 == k) = true
  · rw [if_pos ha] at h
    obtain ⟨p, hp, he⟩ := List.mem_map.mp h
    by_cases hpk : p.1 = k
    · right; rw [← he]; simp [hpk]
    · left; rw [← he]; simpa [hpk] using hp
  · rw [if_neg ha] at h
    rcases List.mem_append.mp h with h1 | h1
    · exact Or.inl h1
    · right
      simp only [List.mem_singleton] at h1
      rw [h1]

theorem jsAssign_fresh {α : Type} (o : List (String × α)) (k : String)
    (v : α) (h : ∀ kv ∈ o, kv.1 ≠ k) : jsAssign o k v = o ++ [(k, v)] := by
  unfold jsAssign
  have ha : o.any (fun p => p.1 == k) = false := by
    rw [List.any_eq_false]
    intro kv hkv
    simp [h kv hkv]
  simp [ha]

theorem dbFindOne_dbUpdate_self (db : Db) (workflowId : String)
    (p : RepoPatch) :
    dbFindOne (dbUpdate db workflowId p) workflowId =
      (dbFindOne db workflowId).map (fun s => applyRepoPatch s p) := by
  induction db with
  | nil => rfl
  | cons e rest ih =>
    by_cases he : e.1 = workflowId
    · simp [dbUpdate, dbFindOne, jsFind, List.find?, he]
    · have hb : (e.1 == workflowId) = false := by simp [he]
      simp only [dbUpdate, List.map_cons, hb, Bool.false_eq_true, if_false,
        dbFindOne, jsFind, List.find?_cons] at ih ⊢
      exact ih

theorem jsGet_jsAssign_self (o : List (String × JsVal)) (k : String)
    (v : JsVal) : jsGet (jsAssign o k v) k = v := by
  have h := jsFind_jsAssign_self o k v
  unfold jsFind at h
  unfold jsGet
  cases hf : (jsAssign o k v).find? (fun p => p.1 == k) with
  | none => rw [hf] at h; simp at h
  | some p =>
    rw [hf] at h
    simp only [Option.some.injEq] at h
    simpa using h

/-! ### Concrete fixtures (used by witness theorems) -/

/-- A concrete trigger node. -/
def sampleNode : NodeT :=
  { name := "Cron", type := "n8n-nodes-base.cronTrigger", disabled := false,
    id := some "n1", credentials := [] }

/-- A concrete stored workflow row. -/
def sampleWorkflow : StoredWorkflow :=
  { name := "wf", active := true, versionId := "v1", nodes := [sampleNode],
    connections := [], settings := [], staticData := JsVal.undefined,
    pinData := [], tags := [] }

/-- A concrete `update` environment around `sampleWorkflow`. -/
def sampleEnv : UpdateEnv :=
  { shared := some ⟨sampleWorkflow⟩, freshUuid := "uuid-1",
    replaceInvalidCredentials := id, addNodeIds := id,
    workflowTagsDisabled := true, executionsTimeoutDefault := 3600,
    validationError := none, db := [("w1", sampleWorkflow)],
    sortByRequestOrder := fun tags _ => tags, activateHook := .ok (),
    activeAdd := .ok (), multiMainEnabled := false }

/-- A concrete incoming request entity (renames the workflow). -/
def samplePatch : WorkflowPatchIn :=
  { id := some "w1", versionId := "v1", active := some true,
    name := some "wf2", nodes := none, connections := none, settings := none,
    staticData := none, pinData := none, extraKeys := [] }

/-! ### Claims -/

/-- C6: `CreateExecutionMetadataTable1674133106777.up` creates exactly one
table, `tablePrefix + 'execution_metadata'`, with columns
`id INTEGER PRIMARY KEY AUTOINCREMENT`, `executionId INTEGER NOT NULL`,
`key TEXT`, `value TEXT`, and a foreign key from `executionId` to the
(prefixed) `execution_entity` table with `ON DELETE CASCADE`; `down` drops
exactly the table of that name, so `down` after `up` restores any schema
that did not already contain such a table. -/
theorem c6_execution_metadata_migration (tpfx : String) :
    (∀ s : Schema, createExecutionMetadataUp tpfx s =
        s ++ [executionMetadataTable tpfx]) ∧
    (executionMetadataTable tpfx).name = tpfx ++ "execution_metadata" ∧
    (executionMetadataTable tpfx).columns =
      [{ name := "id", sqlType := "INTEGER", primaryKey := true,
         autoincrement := true, notNull := false },
       { name := "executionId", sqlType := "INTEGER", primaryKey := false,
         autoincrement := false, notNull := true },
       { name := "key", sqlType := "TEXT", primaryKey := false,
         autoincrement := false, notNull := false },
       { name := "value", sqlType := "TEXT", primaryKey := false,
         autoincrement := false, notNull := false }] ∧
    (executionMetadataTable tpfx).foreignKeys =
      [{ constraintName := tpfx ++ "execution_metadata_entity_FK",
         column := "executionId", refTable := tpfx ++ "execution_entity",
         refColumn := "id", onDeleteCascade := true }] ∧
    (∀ s : Schema, createExecutionMetadataDown tpfx s =
        s.filter (fun t => t.name ≠ tpfx ++ "execution_metadata")) ∧
    (∀ s : Schema, (∀ t ∈ s, t.name ≠ tpfx ++ "execution_metadata") →
        createExecutionMetadataDown tpfx (createExecutionMetadataUp tpfx s) = s) := by
  refine ⟨fun s => rfl, rfl, rfl, rfl, fun s => rfl, ?_⟩
  intro s hs
  unfold createExecutionMetadataDown createExecutionMetadataUp
  rw [List.filter_append]
  have h1 : List.filter (fun t => t.name ≠ tpfx ++ "execution_metadata") s = s :=
    List.filter_eq_self.mpr (fun t ht => by simpa using hs t ht)
  have h2 : List.filter (fun t => t.name ≠ tpfx ++ "execution_metadata")
      [executionMetadataTable tpfx] = [] := by
    simp [executionMetadataTable]
  rw [h1, h2, List.append_nil]

/-- Witness for C6 at a concrete prefix and schema. -/
theorem c6_execution_metadata_migration_witness :
    createExecutionMetadataDown "n8n_" (createExecutionMetadataUp "n8n_"
      [{ name := "n8n_execution_entity", columns := [], foreignKeys := [] }]) =
      [{ name := "n8n_execution_entity", columns := [], foreignKeys := [] }] :=
  (c6_execution_metadata_migration "n8n_").2.2.2.2.2
    [{ name := "n8n_execution_entity", columns := [], foreignKeys := [] }]
    (by
      intro t ht
      rw [List.mem_singleton] at ht
      subst ht
      decide)

/-- C9: when no shared-workflow record grants the user delete access,
`WorkflowService.delete` returns `undefined` without throwing, the
workflow table is untouched, and the only effect that has run is the
`'workflow.delete'` pre-hook (in particular no workflow row and no
execution binary data were deleted). -/
theorem c9_delete_no_permission (env : DeleteEnv) (userId workflowId : String)
    (h : env.sharedForDeletion = none) :
    WorkflowService.delete env userId workflowId =
      ([Ev.hookRun "workflow.delete"], env.db, none) := by
  unfold WorkflowService.delete
  rw [h]

/-- Witness for C9 at a concrete environment. -/
theorem c9_delete_no_permission_witness :
    WorkflowService.delete
        { sharedForDeletion := none, db := [("w1", sampleWorkflow)],
          executionIds := ["e1"] } "u1" "w1" =
      ([Ev.hookRun "workflow.delete"], [("w1", sampleWorkflow)], none) :=
  c9_delete_no_permission
    { sharedForDeletion := none, db := [("w1", sampleWorkflow)],
      executionIds := ["e1"] } "u1" "w1" rfl

/-- C7: `WorkflowService.saveStaticData` writes the static data to the
repository if and only if `staticData.__dataChanged` is strictly `true`
and the workflow id is valid; a successful write resets `__dataChanged` to
`false`; a failed write reports and logs the error, does not throw (the
model is a total function), and leaves the workflow — in particular its
`__dataChanged` flag — unchanged. -/
theorem c7_save_static_data (env : StaticDataEnv) (wf : WorkflowRuntime) :
    (((WorkflowService.saveStaticData env wf).1.any Ev.isStaticDataWrite) = true ↔
      (jsGet wf.staticData "__dataChanged" = JsVal.bool true ∧
        env.isWorkflowIdValid wf.id = true)) ∧
    (jsGet wf.staticData "__dataChanged" = JsVal.bool true →
      env.isWorkflowIdValid wf.id = true →
      env.writeResult = .ok () →
      jsGet ((WorkflowService.saveStaticData env wf).2).staticData "__dataChanged" =
        JsVal.bool false) ∧
    (∀ msg, jsGet wf.staticData "__dataChanged" = JsVal.bool true →
      env.isWorkflowIdValid wf.id = true →
      env.writeResult = .error msg →
      (WorkflowService.saveStaticData env wf).2 = wf ∧
      Ev.errorReported ∈ (WorkflowService.saveStaticData env wf).1 ∧
      Ev.logError (saveStaticDataErrorMessage wf.id msg) ∈
        (WorkflowService.saveStaticData env wf).1) ∧
    (¬(jsGet wf.staticData "__dataChanged" = JsVal.bool true ∧
        env.isWorkflowIdValid wf.id = true) →
      WorkflowService.saveStaticData env wf = ([], wf)) := by
  by_cases hc : jsGet wf.staticData "__dataChanged" = JsVal.bool true
  · by_cases hv : env.isWorkflowIdValid wf.id = true
    · cases hw : env.writeResult with
      | ok u =>
        cases u
        refine ⟨?_, ?_, ?_, ?_⟩
        · simp [WorkflowService.saveStaticData, hc, hv, hw,
            Ev.isStaticDataWrite]
        · intro _ _ _
          simp [WorkflowService.saveStaticData, hc, hv, hw,
            jsGet_jsAssign_self]
        · intro msg _ _ hw2
          exact absurd hw2 (by simp)
        · intro hn
          exact absurd ⟨hc, hv⟩ hn
      | error msg0 =>
        refine ⟨?_, ?_, ?_, ?_⟩
        · simp [WorkflowService.saveStaticData, hc, hv, hw,
            Ev.isStaticDataWrite]
        · intro _ _ hok
          exact absurd hok (by simp)
        · intro msg _ _ hw2
          have hmsg : msg0 = msg := by
            simpa using hw2
          subst hmsg
          simp [WorkflowService.saveStaticData, hc, hv, hw]
        · intro hn
          exact absurd ⟨hc, hv⟩ hn
    · have hvf : env.isWorkflowIdValid wf.id = false := by
        cases h : env.isWorkflowIdValid wf.id
        · rfl
        · exact absurd h hv
      refine ⟨?_, ?_, ?_, ?_⟩
      · simp [WorkflowService.saveStaticData, hc, hvf]
      · intro _ hv2
        exact absurd hv2 hv
      · intro msg _ hv2
        exact absurd hv2 hv
      · intro _
        simp [WorkflowService.saveStaticData, hc, hvf]
  · have hcf : (jsGet wf.staticData "__dataChanged" == JsVal.bool true) = false := by
      simpa using hc
    refine ⟨?_, ?_, ?_, ?_⟩
    · simp [WorkflowService.saveStaticData, hcf]
      intro hx
      exact absurd hx hc
    · intro hx
      exact absurd hx hc
    · intro msg hx
      exact absurd hx hc
    · intro _
      simp [WorkflowService.saveStaticData, hcf]

/-- Witness for C7: a changed, valid, successfully written static-data
object has its flag reset. -/
theorem c7_save_static_data_witness :
    jsGet ((WorkflowService.saveStaticData
        { isWorkflowIdValid := fun _ => true, writeResult := .ok () }
        { id := "w1",
          staticData := [("__dataChanged", JsVal.bool true),
                         ("counter", JsVal.num 3)] }).2).staticData
      "__dataChanged" = JsVal.bool false :=
  (c7_save_static_data
      { isWorkflowIdValid := fun _ => true, writeResult := .ok () }
      { id := "w1",
        staticData := [("__dataChanged", JsVal.bool true),
                       ("counter", JsVal.num 3)] }).2.1 rfl rfl rfl

theorem mem_filter_of_findPinnedTrigger {g : String → List String}
    {wf : StoredWorkflow} {sns : List String} {pd : PinData} {n : NodeT}
    (h : WorkflowService.findPinnedTrigger g wf (some sns) (some pd) = some n) :
    n ∈ wf.nodes.filter (pinnedTriggerPred pd) := by
  simp only [WorkflowService.findPinnedTrigger] at h
  cases hfil : wf.nodes.filter (pinnedTriggerPred pd) with
  | nil => rw [hfil] at h; exact absurd h (by simp)
  | cons pt0 rest =>
    rw [hfil] at h
    simp only at h
    by_cases hlen : (sns.length == 0) = true
    · rw [if_pos hlen] at h
      have : pt0 = n := by simpa using h
      rw [← this]
      exact List.mem_cons_self pt0 rest
    · rw [if_neg hlen] at h
      set parentNames := g (sns.headD "") with hpn
      by_cases hpar : (parentNames.length == 0) = true
      · simp only [if_pos hpar] at h
        exact List.mem_of_find?_eq_some h
      · simp only [if_neg hpar] at h
        cases hfind : parentNames.find? (fun pn => pn == pt0.name) with
        | none => rw [hfind] at h; exact absurd h (by simp)
        | some cn =>
          rw [hfind] at h
          simp only at h
          exact List.mem_of_find?_eq_some h

/-- C8: `findPinnedTrigger` returns `null` whenever `pinData` or
`startNodes` is `undefined`; any node it returns is enabled, has a (truthy)
entry under its name in `pinData`, and has a type name containing
`'trigger'` or `'webhook'` case-insensitively (in particular `pinData` has
an entry for it); and with an empty `startNodes` list it returns the first
such node in the workflow's node order. -/
theorem c8_find_pinned_trigger :
    (∀ (g : String → List String) (wf : StoredWorkflow)
        (sns : Option (List String)) (pd : Option PinData),
        sns = none ∨ pd = none →
        WorkflowService.findPinnedTrigger g wf sns pd = none) ∧
    (∀ (g : String → List String) (wf : StoredWorkflow)
        (sns : Option (List String)) (pd : PinData) (n : NodeT),
        WorkflowService.findPinnedTrigger g wf sns (some pd) = some n →
        n.disabled = false ∧ (jsGet pd n.name).truthy = true ∧
        isTriggerType n.type = true ∧
        (pd.find? (fun p => p.1 == n.name)).isSome = true) ∧
    (∀ (g : String → List String) (wf : StoredWorkflow) (pd : PinData),
        WorkflowService.findPinnedTrigger g wf (some []) (some pd) =
          (wf.nodes.filter (pinnedTriggerPred pd)).head?) := by
  refine ⟨?_, ?_, ?_⟩
  · intro g wf sns pd h
    rcases h with h | h
    · subst h
      cases pd <;> rfl
    · subst h
      rfl
  · intro g wf sns pd n h
    cases sns with
    | none => exact absurd h (by simp [WorkflowService.findPinnedTrigger])
    | some l =>
      have hmem := mem_filter_of_findPinnedTrigger h
      have hpred := (List.mem_filter.mp hmem).2
      unfold pinnedTriggerPred at hpred
      rw [Bool.and_assoc, Bool.and_eq_true, Bool.and_eq_true] at hpred
      obtain ⟨hdis, htru, htrig⟩ := hpred
      refine ⟨by simpa using hdis, htru, htrig, ?_⟩
      cases hfind : pd.find? (fun p => p.1 == n.name) with
      | some p => rfl
      | none =>
        unfold jsGet at htru
        rw [hfind] at htru
        exact absurd htru (by simp [JsVal.truthy, JsVal.undefined])
  · intro g wf pd
    simp only [WorkflowService.findPinnedTrigger]
    cases hfil : wf.nodes.filter (pinnedTriggerPred pd) with
    | nil => rfl
    | cons pt0 rest => rfl

/-- Witness for C8: an undefined `startNodes` yields `null`; a concrete
pinned cron trigger is found, satisfies the filter, and is the first such
node for a full execution. -/
theorem c8_find_pinned_trigger_witness :
    WorkflowService.findPinnedTrigger (fun _ => []) sampleWorkflow none
        (some [("Cron", JsVal.bool true)]) = none ∧
    (sampleNode.disabled = false ∧
      (jsGet [("Cron", JsVal.bool true)] sampleNode.name).truthy = true ∧
      isTriggerType sampleNode.type = true ∧
      (([("Cron", JsVal.bool true)] : PinData).find?
        (fun p => p.1 == sampleNode.name)).isSome = true) ∧
    WorkflowService.findPinnedTrigger (fun _ => []) sampleWorkflow (some [])
        (some [("Cron", JsVal.bool true)]) =
      (sampleWorkflow.nodes.filter
        (pinnedTriggerPred [("Cron", JsVal.bool true)])).head? :=
  ⟨c8_find_pinned_trigger.1 (fun _ => []) sampleWorkflow none
      (some [("Cron", JsVal.bool true)]) (Or.inl rfl),
   c8_find_pinned_trigger.2.1 (fun _ => []) sampleWorkflow (some [])
      [("Cron", JsVal.bool true)] sampleNode rfl,
   c8_find_pinned_trigger.2.2 (fun _ => []) sampleWorkflow
      [("Cron", JsVal.bool true)]⟩

theorem not_conflict_of_shape (r : Except UpdateError StoredWorkflow)
    (m : String)
    (h : match r with
         | .error (.badRequest _ (some c)) => c ≠ 100
         | _ => True) :
    r ≠ .error (.badRequest m (some 100)) := by
  intro heq
  subst heq
  exact h rfl

set_option maxHeartbeats 1000000 in
theorem updateCore_no_conflict_code (env : UpdateEnv) (userId : String)
    (w : WorkflowPatchIn) (workflowId : String) (tagIds : Option (List String))
    (shared : SharedWorkflowRec) (m : String) :
    (updateCore env userId w workflowId tagIds shared).2.2 ≠
      Except.error (.badRequest m (some 100)) := by
  unfold updateCore
  dsimp only
  cases hval : (if optStrTruthy ((updateEffectiveEntity env w)).name then
      env.validationError else none) with
  | some msg => exact not_conflict_of_shape _ m trivial
  | none =>
    dsimp only
    cases hfo : dbFindOne
        (dbUpdate env.db workflowId (mainRepoPatch (updateEffectiveEntity env w)))
        workflowId with
    | none => exact not_conflict_of_shape _ m trivial
    | some row =>
      dsimp only
      cases env.activateHook <;> cases env.activeAdd <;>
        simp only [apply_ite
            (@Prod.snd (List Ev) (Db × Except UpdateError StoredWorkflow)),
          apply_ite (@Prod.snd Db (Except UpdateError StoredWorkflow))] <;>
        (repeat' split) <;>
        exact not_conflict_of_shape _ m trivial

/-- C1: when `forceSave` is not set and the incoming `versionId` is
non-empty and differs from the stored one, `update` throws the
`BadRequestError` with error code 100 before any effect: the trace is
empty (in particular no workflow-repository write happened) and the
workflow table is unchanged. With `forceSave` set, the code-100 conflict
error can never be thrown. -/
theorem c1_update_conflict :
    (∀ (env : UpdateEnv) (userId : String) (w : WorkflowPatchIn)
        (workflowId : String) (tagIds : Option (List String))
        (s : SharedWorkflowRec),
        env.shared = some s →
        w.versionId ≠ "" →
        w.versionId ≠ s.workflow.versionId →
        WorkflowService.update env userId w workflowId tagIds false =
          ([], env.db, .error (.badRequest conflictMessage (some 100)))) ∧
    (∀ (env : UpdateEnv) (userId : String) (w : WorkflowPatchIn)
        (workflowId : String) (tagIds : Option (List String)) (m : String),
        (WorkflowService.update env userId w workflowId tagIds true).2.2 ≠
          .error (.badRequest m (some 100))) := by
  constructor
  · intro env userId w workflowId tagIds s hs hne hdiff
    unfold WorkflowService.update
    simp only [hs]
    have hcond : (!false && w.versionId != "" &&
        w.versionId != s.workflow.versionId) = true := by
      simp [hne, hdiff]
    rw [if_pos hcond]
  · intro env userId w workflowId tagIds m
    unfold WorkflowService.update
    cases hs : env.shared with
    | none => simp
    | some s =>
      dsimp only
      have hcond : (!true && w.versionId != "" &&
          w.versionId != s.workflow.versionId) = false := by simp
      rw [hcond]
      simp only [Bool.false_eq_true, if_false]
      exact updateCore_no_conflict_code env userId w workflowId tagIds s m

/-- Witness for C1 at a concrete environment: the conflict fires with
`forceSave` unset and is skipped with `forceSave` set. -/
theorem c1_update_conflict_witness :
    WorkflowService.update sampleEnv "u1" { samplePatch with versionId := "v2" }
        "w1" none false =
      ([], [("w1", sampleWorkflow)], .error (.badRequest conflictMessage (some 100))) ∧
    (WorkflowService.update sampleEnv "u1" { samplePatch with versionId := "v2" }
        "w1" none true).2.2 ≠ .error (.badRequest conflictMessage (some 100)) :=
  ⟨c1_update_conflict.1 sampleEnv "u1" { samplePatch with versionId := "v2" }
      "w1" none ⟨sampleWorkflow⟩ rfl (by decide) (by decide),
   c1_update_conflict.2 sampleEnv "u1" { samplePatch with versionId := "v2" }
      "w1" none conflictMessage⟩

theorem refetchAdjusted_tags_only (env : UpdateEnv)
    (tagIds : Option (List String)) (row : StoredWorkflow) :
    refetchAdjusted env tagIds row =
      { row with tags := (refetchAdjusted env tagIds row).tags } := by
  unfold refetchAdjusted
  by_cases hd : env.workflowTagsDisabled
  · simp only [hd, if_true]
    split <;> rfl
  · simp only [hd, Bool.false_eq_true, if_false]
    split <;> rfl

set_option maxHeartbeats 1000000 in
/-- Characterization of every call of `update` that returns `ok`: the
shared helper behind several claims. The final workflow table is the
input table with the picked patch applied at `workflowId`; the returned
entity is the re-fetched row (tags apart); and the trace is exactly the
listed events in program order. -/
theorem update_ok_characterization
    (env : UpdateEnv) (userId : String) (w : WorkflowPatchIn)
    (workflowId : String) (tagIds : Option (List String)) (forceSave : Bool)
    (s : SharedWorkflowRec) (tr : List Ev) (db2 : Db) (u : StoredWorkflow)
    (hs : env.shared = some s)
    (hok : WorkflowService.update env userId w workflowId tagIds forceSave =
      (tr, db2, .ok u)) :
    ∃ row : StoredWorkflow,
      dbFindOne (dbUpdate env.db workflowId
          (mainRepoPatch (updateEffectiveEntity env w))) workflowId = some row ∧
      db2 = dbUpdate env.db workflowId (mainRepoPatch (updateEffectiveEntity env w)) ∧
      u = refetchAdjusted env tagIds row ∧
      u = { row with tags := u.tags } ∧
      tr = [Ev.hookRun "workflow.update"]
        ++ (if s.workflow.active then [Ev.removeActiveWorkflow workflowId] else [])
        ++ [Ev.workflowRepoUpdate workflowId (mainRepoPatch (updateEffectiveEntity env w))]
        ++ tagTrace env workflowId tagIds
        ++ historyTrace env userId w workflowId s
        ++ [Ev.hookRun "workflow.afterUpdate", Ev.internalWorkflowSaved userId workflowId]
        ++ (if u.active then
              [Ev.hookRun "workflow.activate",
               Ev.addActiveWorkflow workflowId
                 (if s.workflow.active then "update" else "activate")]
            else [])
        ++ [Ev.multiMainInit]
        ++ (if env.multiMainEnabled then
              [Ev.broadcastActiveState workflowId s.workflow.active u.active
                s.workflow.versionId]
            else []) := by
  unfold WorkflowService.update at hok
  simp only [hs] at hok
  cases hcb : (!forceSave && w.versionId != "" &&
      w.versionId != s.workflow.versionId) with
  | true =>
    simp only [hcb, if_true] at hok
    simp [Prod.mk.injEq] at hok
  | false =>
    simp only [hcb, Bool.false_eq_true, if_false] at hok
    unfold updateCore at hok
    dsimp only at hok
    cases hval : (if optStrTruthy (updateEffectiveEntity env w).name then
        env.validationError else none) with
    | some msg =>
      simp only [hval] at hok
      simp [Prod.mk.injEq] at hok
    | none =>
      simp only [hval] at hok
      cases hfo : dbFindOne
          (dbUpdate env.db workflowId (mainRepoPatch (updateEffectiveEntity env w)))
          workflowId with
      | none =>
        simp only [hfo] at hok
        simp [Prod.mk.injEq] at hok
      | some row =>
        simp only [hfo] at hok
        refine ⟨row, rfl, ?_⟩
        cases hact : (refetchAdjusted env tagIds row).active with
        | true =>
          simp only [hact, if_true] at hok
          cases hhook : env.activateHook with
          | error e =>
            simp only [hhook] at hok
            simp [Prod.mk.injEq] at hok
          | ok u0 =>
            cases u0
            simp only [hhook] at hok
            cases hadd : env.activeAdd with
            | error e =>
              simp only [hadd] at hok
              simp [Prod.mk.injEq] at hok
            | ok u1 =>
              cases u1
              simp only [hadd] at hok
              obtain ⟨htr, hdb, hres⟩ :
                  _ = tr ∧ _ = db2 ∧ refetchAdjusted env tagIds row = u := by
                simpa [Prod.mk.injEq] using hok
              subst htr
              subst hdb
              subst hres
              refine ⟨rfl, rfl, refetchAdjusted_tags_only env tagIds row, ?_⟩
              simp [hact, List.append_assoc]
        | false =>
          simp only [hact, Bool.false_eq_true, if_false] at hok
          obtain ⟨htr, hdb, hres⟩ :
              _ = tr ∧ _ = db2 ∧ refetchAdjusted env tagIds row = u := by
            simpa [Prod.mk.injEq] using hok
          subst htr
          subst hdb
          subst hres
          refine ⟨rfl, rfl, refetchAdjusted_tags_only env tagIds row, ?_⟩
          simp [hact, List.append_assoc]

theorem mem_ite_nil {α : Type} {x : α} {c : Prop} [Decidable c]
    {l : List α} : (x ∈ if c then l else []) ↔ c ∧ x ∈ l := by
  split
  next h => simp [h]
  next h => simp [h]

theorem updateEffectiveEntity_versionId (env : UpdateEnv) (w : WorkflowPatchIn) :
    (updateEffectiveEntity env w).versionId =
      if w.otherKeys.length > 0 then env.freshUuid else w.versionId := by
  unfold updateEffectiveEntity
  split <;> rfl

/-- C3: in `update`, a fresh uuid replaces the incoming `versionId`
exactly when the request entity has at least one own property other than
`id`, `versionId` and `active` (`otherKeys ≠ []`); the persisted patch
carries that (possibly regenerated) `versionId`; and a workflow-history
version is saved exactly when it differs from the stored `versionId`. -/
theorem c3_update_versioning
    (env : UpdateEnv) (userId : String) (w : WorkflowPatchIn)
    (workflowId : String) (tagIds : Option (List String)) (forceSave : Bool)
    (s : SharedWorkflowRec) (tr : List Ev) (db2 : Db) (u : StoredWorkflow)
    (hs : env.shared = some s)
    (hok : WorkflowService.update env userId w workflowId tagIds forceSave =
      (tr, db2, .ok u)) :
    (updateEffectiveEntity env w).versionId =
      (if w.otherKeys.length > 0 then env.freshUuid else w.versionId) ∧
    (∃ p : RepoPatch, Ev.workflowRepoUpdate workflowId p ∈ tr ∧
      p.versionId = some (updateEffectiveEntity env w).versionId) ∧
    ((Ev.saveWorkflowVersion userId workflowId
        (updateEffectiveEntity env w).versionId ∈ tr) ↔
      (updateEffectiveEntity env w).versionId ≠ s.workflow.versionId) ∧
    (∀ v, Ev.saveWorkflowVersion userId workflowId v ∈ tr →
      v = (updateEffectiveEntity env w).versionId) := by
  obtain ⟨row, hfo, hdb, hru, htags, htr⟩ :=
    update_ok_characterization env userId w workflowId tagIds forceSave s tr
      db2 u hs hok
  have hmem : ∀ v, (Ev.saveWorkflowVersion userId workflowId v ∈ tr) ↔
      (((updateEffectiveEntity env w).versionId !=
          s.workflow.versionId) = true ∧
        v = (updateEffectiveEntity env w).versionId) := by
    intro v
    rw [htr]
    unfold historyTrace tagTrace
    rcases tagIds with _ | tids <;>
      simp [mem_ite_nil, List.mem_append, and_comm]
  refine ⟨updateEffectiveEntity_versionId env w, ?_, ?_, ?_⟩
  · refine ⟨mainRepoPatch (updateEffectiveEntity env w), ?_, rfl⟩
    rw [htr]
    simp
  · rw [hmem]
    simp [bne_iff_ne]
  · intro v hv
    exact ((hmem v).mp hv).2

/-- The row `sampleEnv`'s table holds after the `samplePatch` update. -/
def sampleUpdated : StoredWorkflow :=
  { sampleWorkflow with name := "wf2", versionId := "uuid-1" }

/-- Witness for C3 at a concrete successful call. -/
theorem c3_update_versioning_witness :
    (updateEffectiveEntity sampleEnv samplePatch).versionId =
      (if samplePatch.otherKeys.length > 0 then sampleEnv.freshUuid
       else samplePatch.versionId) ∧
    (∃ p : RepoPatch,
      Ev.workflowRepoUpdate "w1" p ∈
        (WorkflowService.update sampleEnv "u1" samplePatch "w1" none false).1 ∧
      p.versionId = some (updateEffectiveEntity sampleEnv samplePatch).versionId) ∧
    ((Ev.saveWorkflowVersion "u1" "w1"
        (updateEffectiveEntity sampleEnv samplePatch).versionId ∈
        (WorkflowService.update sampleEnv "u1" samplePatch "w1" none false).1) ↔
      (updateEffectiveEntity sampleEnv samplePatch).versionId ≠
        sampleWorkflow.versionId) ∧
    (∀ v, Ev.saveWorkflowVersion "u1" "w1" v ∈
        (WorkflowService.update sampleEnv "u1" samplePatch "w1" none false).1 →
      v = (updateEffectiveEntity sampleEnv samplePatch).versionId) :=
  c3_update_versioning sampleEnv "u1" samplePatch "w1" none false
    ⟨sampleWorkflow⟩
    (WorkflowService.update sampleEnv "u1" samplePatch "w1" none false).1
    (WorkflowService.update sampleEnv "u1" samplePatch "w1" none false).2.1
    sampleUpdated rfl rfl

set_option maxHeartbeats 1000000 in
/-- Characterization of every call of `update` that throws the
activation-failure `BadRequestError`: the returned entity was marked
inactive, the message comes from the first error of the activation `try`
block, the last effect was the rollback write
`{ active: false, versionId: <pre-update versionId> }`, and the stored row
(when present) ends up inactive with the pre-update `versionId`. -/
theorem update_activation_failure_characterization
    (env : UpdateEnv) (userId : String) (w : WorkflowPatchIn)
    (workflowId : String) (tagIds : Option (List String)) (forceSave : Bool)
    (s : SharedWorkflowRec) (tr : List Ev) (db2 : Db) (m : String)
    (rw0 : StoredWorkflow)
    (hs : env.shared = some s)
    (herr : WorkflowService.update env userId w workflowId tagIds forceSave =
      (tr, db2, .error (.activationFailed m rw0))) :
    rw0.active = false ∧
    (∃ e : JsError, env.activationResult = .error e ∧ m = e.resolveMessage) ∧
    tr.getLast? = some (Ev.workflowRepoUpdate workflowId
      (rollbackPatch s.workflow.versionId)) ∧
    db2 = dbUpdate
      (dbUpdate env.db workflowId (mainRepoPatch (updateEffectiveEntity env w)))
      workflowId (rollbackPatch s.workflow.versionId) ∧
    (∀ sw, dbFindOne db2 workflowId = some sw →
      sw.active = false ∧ sw.versionId = s.workflow.versionId) := by
  unfold WorkflowService.update at herr
  simp only [hs] at herr
  cases hcb : (!forceSave && w.versionId != "" &&
      w.versionId != s.workflow.versionId) with
  | true =>
    simp only [hcb, if_true] at herr
    simp [Prod.mk.injEq] at herr
  | false =>
    simp only [hcb, Bool.false_eq_true, if_false] at herr
    unfold updateCore at herr
    dsimp only at herr
    cases hval : (if optStrTruthy (updateEffectiveEntity env w).name then
        env.validationError else none) with
    | some msg =>
      simp only [hval] at herr
      simp [Prod.mk.injEq] at herr
    | none =>
      simp only [hval] at herr
      cases hfo : dbFindOne
          (dbUpdate env.db workflowId (mainRepoPatch (updateEffectiveEntity env w)))
          workflowId with
      | none =>
        simp only [hfo] at herr
        simp [Prod.mk.injEq] at herr
      | some row =>
        simp only [hfo] at herr
        cases hact : (refetchAdjusted env tagIds row).active with
        | false =>
          simp only [hact, Bool.false_eq_true, if_false] at herr
          simp [Prod.mk.injEq] at herr
        | true =>
          simp only [hact, if_true] at herr
          have hfin : ∀ (e : JsError) (pre : List Ev),
              env.activationResult = .error e →
              (pre ++ [Ev.workflowRepoUpdate workflowId
                  (rollbackPatch s.workflow.versionId)] : List Ev) = tr →
              dbUpdate (dbUpdate env.db workflowId
                  (mainRepoPatch (updateEffectiveEntity env w)))
                workflowId (rollbackPatch s.workflow.versionId) = db2 →
              UpdateError.activationFailed e.resolveMessage
                  { refetchAdjusted env tagIds row with active := false } =
                UpdateError.activationFailed m rw0 →
              rw0.active = false ∧
              (∃ e2 : JsError, env.activationResult = .error e2 ∧
                m = e2.resolveMessage) ∧
              tr.getLast? = some (Ev.workflowRepoUpdate workflowId
                (rollbackPatch s.workflow.versionId)) ∧
              db2 = dbUpdate (dbUpdate env.db workflowId
                  (mainRepoPatch (updateEffectiveEntity env w)))
                workflowId (rollbackPatch s.workflow.versionId) ∧
              (∀ sw, dbFindOne db2 workflowId = some sw →
                sw.active = false ∧ sw.versionId = s.workflow.versionId) := by
            intro e pre hres htr hdb hinj
            obtain ⟨hm, hrw⟩ : e.resolveMessage = m ∧
                { refetchAdjusted env tagIds row with active := false } = rw0 := by
              injection hinj with h1 h2
              exact ⟨h1, h2⟩
            subst hdb
            refine ⟨by rw [← hrw], ⟨e, hres, hm.symm⟩, ?_, rfl, ?_⟩
            · rw [← htr]
              simp
            · intro sw hsw
              rw [dbFindOne_dbUpdate_self, hfo] at hsw
              have happ : applyRepoPatch row (rollbackPatch s.workflow.versionId) = sw := by
                simpa using hsw
              subst happ
              exact ⟨rfl, rfl⟩
          cases hhook : env.activateHook with
          | error e =>
            simp only [hhook] at herr
            have htr := congrArg Prod.fst herr
            have hdb := congrArg (fun t :
              List Ev × Db × Except UpdateError StoredWorkflow => t.2.1) herr
            have hinj := congrArg (fun t :
              List Ev × Db × Except UpdateError StoredWorkflow => t.2.2) herr
            simp only at htr hdb hinj
            have hinj2 := hinj
            injection hinj2 with hinj3
            refine hfin e _ ?_ htr hdb hinj3
            unfold UpdateEnv.activationResult
            rw [hhook]
          | ok u0 =>
            cases u0
            simp only [hhook] at herr
            cases hadd : env.activeAdd with
            | ok u1 =>
              cases u1
              simp only [hadd] at herr
              have hinj := congrArg (fun t :
                List Ev × Db × Except UpdateError StoredWorkflow => t.2.2) herr
              simp only at hinj
              exact absurd hinj (by simp)
            | error e =>
              simp only [hadd] at herr
              have htr := congrArg Prod.fst herr
              have hdb := congrArg (fun t :
                List Ev × Db × Except UpdateError StoredWorkflow => t.2.1) herr
              have hinj := congrArg (fun t :
                List Ev × Db × Except UpdateError StoredWorkflow => t.2.2) herr
              simp only at htr hdb hinj
              have hinj2 := hinj
              injection hinj2 with hinj3
              refine hfin e _ ?_ htr hdb hinj3
              unfold UpdateEnv.activationResult
              rw [hhook, hadd]

set_option maxHeartbeats 1000000 in
/-- A successful `update` either returned an inactive workflow or the
whole activation `try` block succeeded. -/
theorem update_ok_activation
    (env : UpdateEnv) (userId : String) (w : WorkflowPatchIn)
    (workflowId : String) (tagIds : Option (List String)) (forceSave : Bool)
    (s : SharedWorkflowRec) (tr : List Ev) (db2 : Db) (u : StoredWorkflow)
    (hs : env.shared = some s)
    (hok : WorkflowService.update env userId w workflowId tagIds forceSave =
      (tr, db2, .ok u)) :
    u.active = false ∨ env.activationResult = .ok () := by
  unfold WorkflowService.update at hok
  simp only [hs] at hok
  cases hcb : (!forceSave && w.versionId != "" &&
      w.versionId != s.workflow.versionId) with
  | true =>
    simp only [hcb, if_true] at hok
    simp [Prod.mk.injEq] at hok
  | false =>
    simp only [hcb, Bool.false_eq_true, if_false] at hok
    unfold updateCore at hok
    dsimp only at hok
    cases hval : (if optStrTruthy (updateEffectiveEntity env w).name then
        env.validationError else none) with
    | some msg =>
      simp only [hval] at hok
      simp [Prod.mk.injEq] at hok
    | none =>
      simp only [hval] at hok
      cases hfo : dbFindOne
          (dbUpdate env.db workflowId (mainRepoPatch (updateEffectiveEntity env w)))
          workflowId with
      | none =>
        simp only [hfo] at hok
        simp [Prod.mk.injEq] at hok
      | some row =>
        simp only [hfo] at hok
        cases hact : (refetchAdjusted env tagIds row).active with
        | false =>
          simp only [hact, Bool.false_eq_true, if_false] at hok
          obtain ⟨htr, hdb, hres⟩ :
              _ = tr ∧ _ = db2 ∧ refetchAdjusted env tagIds row = u := by
            simpa [Prod.mk.injEq] using hok
          left
          rw [← hres]
          exact hact
        | true =>
          simp only [hact, if_true] at hok
          cases hhook : env.activateHook with
          | error e =>
            simp only [hhook] at hok
            simp [Prod.mk.injEq] at hok
          | ok u0 =>
            cases u0
            simp only [hhook] at hok
            cases hadd : env.activeAdd with
            | error e =>
              simp only [hadd] at hok
              simp [Prod.mk.injEq] at hok
            | ok u1 =>
              cases u1
              right
              unfold UpdateEnv.activationResult
              rw [hhook, hadd]

/-- C4: if re-activating the updated workflow fails (the
`'workflow.activate'` hook or the active-registry `add` throws), `update`
rolls back: it persists `active = false` together with the pre-update
`versionId` as its final repository write (so the stored row ends up
inactive with the old `versionId`), marks the returned entity inactive,
and throws a `BadRequestError` carrying the activation error's message
(a `NodeApiError`'s `description` when present). Conversely a successful
call with an active result implies the activation block succeeded. -/
theorem c4_activation_rollback :
    (∀ (env : UpdateEnv) (userId : String) (w : WorkflowPatchIn)
        (workflowId : String) (tagIds : Option (List String))
        (forceSave : Bool) (s : SharedWorkflowRec) (tr : List Ev) (db2 : Db)
        (m : String) (rw0 : StoredWorkflow),
        env.shared = some s →
        WorkflowService.update env userId w workflowId tagIds forceSave =
          (tr, db2, .error (.activationFailed m rw0)) →
        rw0.active = false ∧
        (∃ e : JsError, env.activationResult = .error e ∧
          m = e.resolveMessage) ∧
        tr.getLast? = some (Ev.workflowRepoUpdate workflowId
          (rollbackPatch s.workflow.versionId)) ∧
        (∀ sw, dbFindOne db2 workflowId = some sw →
          sw.active = false ∧ sw.versionId = s.workflow.versionId)) ∧
    (∀ (env : UpdateEnv) (userId : String) (w : WorkflowPatchIn)
        (workflowId : String) (tagIds : Option (List String))
        (forceSave : Bool) (s : SharedWorkflowRec) (tr : List Ev) (db2 : Db)
        (u : StoredWorkflow) (e : JsError),
        env.shared = some s →
        env.activationResult = .error e →
        WorkflowService.update env userId w workflowId tagIds forceSave =
          (tr, db2, .ok u) →
        u.active = false) := by
  constructor
  · intro env userId w workflowId tagIds forceSave s tr db2 m rw0 hs herr
    obtain ⟨h1, h2, h3, _, h5⟩ :=
      update_activation_failure_characterization env userId w workflowId
        tagIds forceSave s tr db2 m rw0 hs herr
    exact ⟨h1, h2, h3, h5⟩
  · intro env userId w workflowId tagIds forceSave s tr db2 u e hs hact hok
    rcases update_ok_activation env userId w workflowId tagIds forceSave s tr
        db2 u hs hok with h | h
    · exact h
    · rw [hact] at h
      exact absurd h (by simp)

/-- A stored row that is inactive. -/
def sampleInactiveWorkflow : StoredWorkflow :=
  { sampleWorkflow with active := false }

/-- `sampleEnv` with a failing active-registry `add`. -/
def sampleEnvActFail : UpdateEnv :=
  { sampleEnv with activeAdd := Except.error (JsError.generic "boom") }

/-- `sampleEnvActFail` around an inactive stored workflow. -/
def sampleEnvInactive : UpdateEnv :=
  { sampleEnv with
    shared := some { workflow := sampleInactiveWorkflow },
    db := [("w1", sampleInactiveWorkflow)],
    activeAdd := Except.error (JsError.generic "boom") }

/-- The entity the activation-failure branch carries in its error. -/
def sampleRolledBack : StoredWorkflow :=
  { sampleUpdated with active := false }

/-- Witness for C4: a concrete failing activation rolls back, and a
concrete inactive update succeeds despite the broken registry. -/
theorem c4_activation_rollback_witness :
    (sampleRolledBack.active = false ∧
      (∃ e : JsError, sampleEnvActFail.activationResult = .error e ∧
        "boom" = e.resolveMessage) ∧
      (WorkflowService.update sampleEnvActFail "u1" samplePatch "w1" none
          false).1.getLast? =
        some (Ev.workflowRepoUpdate "w1"
          (rollbackPatch sampleWorkflow.versionId)) ∧
      (∀ sw, dbFindOne (WorkflowService.update sampleEnvActFail "u1"
            samplePatch "w1" none false).2.1 "w1" = some sw →
        sw.active = false ∧ sw.versionId = sampleWorkflow.versionId)) ∧
    sampleRolledBack.active = false :=
  ⟨c4_activation_rollback.1 sampleEnvActFail "u1" samplePatch "w1" none false
      ⟨sampleWorkflow⟩
      (WorkflowService.update sampleEnvActFail "u1" samplePatch "w1" none false).1
      (WorkflowService.update sampleEnvActFail "u1" samplePatch "w1" none false).2.1
      "boom" sampleRolledBack rfl rfl,
   c4_activation_rollback.2 sampleEnvInactive "u1"
      { samplePatch with active := some false } "w1" none false
      ⟨sampleInactiveWorkflow⟩
      (WorkflowService.update sampleEnvInactive "u1"
        { samplePatch with active := some false } "w1" none false).1
      (WorkflowService.update sampleEnvInactive "u1"
        { samplePatch with active := some false } "w1" none false).2.1
      sampleRolledBack (.generic "boom") rfl rfl rfl⟩

theorem tagTrace_isTagOrHistory (env : UpdateEnv) (workflowId : String)
    (tagIds : Option (List String)) :
    ∀ e ∈ tagTrace env workflowId tagIds, e.isTagOrHistory = true := by
  unfold tagTrace
  rcases tagIds with _ | tids
  · simp
  · intro e he
    rw [mem_ite_nil] at he
    rcases List.mem_cons.mp he.2 with h | h
    · subst h; rfl
    · rw [List.mem_singleton] at h
      subst h; rfl

theorem historyTrace_isTagOrHistory (env : UpdateEnv) (userId : String)
    (w : WorkflowPatchIn) (workflowId : String) (shared : SharedWorkflowRec) :
    ∀ e ∈ historyTrace env userId w workflowId shared,
      e.isTagOrHistory = true := by
  unfold historyTrace
  intro e he
  rw [mem_ite_nil] at he
  rw [List.mem_singleton] at he
  rw [he.2]
  rfl

/-- Counterexample to C2 as stated: a call of `update` that succeeds end
to end (returning the re-fetched entity) without ever broadcasting the
active-state change, because multi-main mode is disabled. The claimed
unconditional "then the multi-main broadcast" step therefore does not
happen on every call. -/
theorem c2_order_counterexample :
    ((WorkflowService.update sampleEnv "u1" samplePatch "w1" none false).2.2 =
      Except.ok sampleUpdated) ∧
    ((WorkflowService.update sampleEnv "u1" samplePatch "w1" none false).1.all
      (fun e => !e.isBroadcast) = true) :=
  ⟨rfl, rfl⟩

/-- C2 (amended): `update` performs its steps in program order — the
permission check first (a failure throws `NotFoundError` with no other
effect), then the optimistic-concurrency check (a conflict throws with no
effect), then, on every successful call: the `'workflow.update'` hook,
(if the stored workflow was active) removal from the active registry, the
persist to the workflow repository, only tag-mapping/workflow-history
writes, the post-update hooks, (if the updated workflow is active)
re-addition to the active registry, the multi-main `init`, and (if
multi-main mode is enabled) the broadcast of the active-state change;
finally it returns the re-fetched updated entity (tags ordering apart). -/
theorem c2_update_step_order :
    (∀ (env : UpdateEnv) (userId : String) (w : WorkflowPatchIn)
        (workflowId : String) (tagIds : Option (List String))
        (forceSave : Bool),
        env.shared = none →
        WorkflowService.update env userId w workflowId tagIds forceSave =
          ([], env.db, .error (.notFound permissionMessage))) ∧
    (∀ (env : UpdateEnv) (userId : String) (w : WorkflowPatchIn)
        (workflowId : String) (tagIds : Option (List String))
        (s : SharedWorkflowRec),
        env.shared = some s →
        w.versionId ≠ "" →
        w.versionId ≠ s.workflow.versionId →
        WorkflowService.update env userId w workflowId tagIds false =
          ([], env.db, .error (.badRequest conflictMessage (some 100)))) ∧
    (∀ (env : UpdateEnv) (userId : String) (w : WorkflowPatchIn)
        (workflowId : String) (tagIds : Option (List String))
        (forceSave : Bool) (s : SharedWorkflowRec) (tr : List Ev) (db2 : Db)
        (u : StoredWorkflow),
        env.shared = some s →
        WorkflowService.update env userId w workflowId tagIds forceSave =
          (tr, db2, .ok u) →
        ∃ (mid : List Ev) (row : StoredWorkflow),
          tr = [Ev.hookRun "workflow.update"]
            ++ (if s.workflow.active then [Ev.removeActiveWorkflow workflowId]
                else [])
            ++ [Ev.workflowRepoUpdate workflowId
                  (mainRepoPatch (updateEffectiveEntity env w))]
            ++ mid
            ++ [Ev.hookRun "workflow.afterUpdate",
                Ev.internalWorkflowSaved userId workflowId]
            ++ (if u.active then
                  [Ev.hookRun "workflow.activate",
                   Ev.addActiveWorkflow workflowId
                     (if s.workflow.active then "update" else "activate")]
                else [])
            ++ [Ev.multiMainInit]
            ++ (if env.multiMainEnabled then
                  [Ev.broadcastActiveState workflowId s.workflow.active
                    u.active s.workflow.versionId]
                else []) ∧
          (∀ e ∈ mid, e.isTagOrHistory = true) ∧
          dbFindOne db2 workflowId = some row ∧
          u = { row with tags := u.tags }) := by
  refine ⟨?_, ?_, ?_⟩
  · intro env userId w workflowId tagIds forceSave h
    unfold WorkflowService.update
    rw [h]
  · intro env userId w workflowId tagIds s hs hne hdiff
    unfold WorkflowService.update
    simp only [hs]
    have hcond : (!false && w.versionId != "" &&
        w.versionId != s.workflow.versionId) = true := by
      simp [hne, hdiff]
    rw [if_pos hcond]
  · intro env userId w workflowId tagIds forceSave s tr db2 u hs hok
    obtain ⟨row, hfo, hdb, hru, htags, htr⟩ :=
      update_ok_characterization env userId w workflowId tagIds forceSave s tr
        db2 u hs hok
    refine ⟨tagTrace env workflowId tagIds ++ historyTrace env userId w workflowId s,
      row, ?_, ?_, ?_, htags⟩
    · rw [htr]
      simp [List.append_assoc]
    · intro e he
      rcases List.mem_append.mp he with h | h
      · exact tagTrace_isTagOrHistory env workflowId tagIds e h
      · exact historyTrace_isTagOrHistory env userId w workflowId s e h
    · rw [hdb]
      exact hfo

/-- Witness for the amended C2 at a concrete successful call. -/
theorem c2_update_step_order_witness :
    ∃ (mid : List Ev) (row : StoredWorkflow),
      (WorkflowService.update sampleEnv "u1" samplePatch "w1" none false).1 =
        [Ev.hookRun "workflow.update"]
          ++ (if sampleWorkflow.active then [Ev.removeActiveWorkflow "w1"] else [])
          ++ [Ev.workflowRepoUpdate "w1"
                (mainRepoPatch (updateEffectiveEntity sampleEnv samplePatch))]
          ++ mid
          ++ [Ev.hookRun "workflow.afterUpdate",
              Ev.internalWorkflowSaved "u1" "w1"]
          ++ (if sampleUpdated.active then
                [Ev.hookRun "workflow.activate",
                 Ev.addActiveWorkflow "w1"
                   (if sampleWorkflow.active then "update" else "activate")]
              else [])
          ++ [Ev.multiMainInit]
          ++ (if sampleEnv.multiMainEnabled then
                [Ev.broadcastActiveState "w1" sampleWorkflow.active
                  sampleUpdated.active sampleWorkflow.versionId]
              else []) ∧
      (∀ e ∈ mid, e.isTagOrHistory = true) ∧
      dbFindOne (WorkflowService.update sampleEnv "u1" samplePatch "w1" none
        false).2.1 "w1" = some row ∧
      sampleUpdated = { row with tags := sampleUpdated.tags } :=
  c2_update_step_order.2.2 sampleEnv "u1" samplePatch "w1" none false
    ⟨sampleWorkflow⟩
    (WorkflowService.update sampleEnv "u1" samplePatch "w1" none false).1
    (WorkflowService.update sampleEnv "u1" samplePatch "w1" none false).2.1
    sampleUpdated rfl rfl

/-- The loop over the (non-`__MACOSX`) entries of one unzipped archive:
each entry is stored under the output prefix and the running per-item zip
counter. -/
def zipEntriesFold (lib : CompressionLib) (outputPrefixParam : String)
    (entries : List (String × List Nat)) (acc : Nat × List (String × BinFile)) :
    Nat × List (String × BinFile) :=
  entries.foldl (fun st kv =>
    (st.1 + 1, jsAssign st.2 (outputPrefixParam ++ decStr st.1)
      (prepareBinaryData lib kv.2 (some kv.1)))) acc

/-- Every key of the object has the form `prefix + <counter>`. -/
def KeyShape (pfx : String) (o : List (String × BinFile)) : Prop :=
  ∀ kv ∈ o, ∃ k : Nat, kv.1 = pfx ++ decStr k

theorem foldl_skip_eq_filter_foldl {α σ : Type} (p : α → Bool) (f : σ → α → σ) :
    ∀ (l : List α) (st : σ),
      l.foldl (fun st a => if p a then st else f st a) st =
        (l.filter (fun a => !p a)).foldl f st := by
  intro l
  induction l with
  | nil => intro st; rfl
  | cons a rest ih =>
    intro st
    by_cases hp : p a = true
    · simp [List.foldl_cons, hp, List.filter_cons, ih]
    · have hp2 : p a = false := by
        cases h : p a
        · rfl
        · exact absurd h hp
      simp [List.foldl_cons, hp2, List.filter_cons, ih]

theorem zipEntriesFold_raw_keyshape (lib : CompressionLib) (pfx : String) :
    ∀ (entries : List (String × List Nat)) (st : Nat × List (String × BinFile)),
      KeyShape pfx st.2 →
      KeyShape pfx ((entries.foldl (fun st kv =>
        if jsIncludes kv.1 "__MACOSX" then st
        else (st.1 + 1, jsAssign st.2 (pfx ++ decStr st.1)
          (prepareBinaryData lib kv.2 (some kv.1)))) st)).2 := by
  intro entries
  induction entries with
  | nil => intro st h; exact h
  | cons kv0 rest ih =>
    intro st h
    rw [List.foldl_cons]
    by_cases hskip : jsIncludes kv0.1 "__MACOSX" = true
    · rw [if_pos hskip]
      exact ih st h
    · rw [if_neg hskip]
      refine ih _ ?_
      intro kv hkv
      rcases jsAssign_mem_inv hkv with hold | hnew
      · exact h kv hold
      · exact ⟨st.1, hnew⟩

theorem decompressStep_keyshape (lib : CompressionLib) (pfx : String)
    (item : Item) (acc acc2 : Nat × List (String × BinFile)) (idx : Nat)
    (name : String)
    (hstep : decompressStep lib pfx item acc idx name = .ok acc2)
    (hacc : KeyShape pfx acc.2) : KeyShape pfx acc2.2 := by
  unfold decompressStep at hstep
  cases hfind : jsFind item.binary name with
  | none => rw [hfind] at hstep; exact absurd hstep (by simp)
  | some bf =>
    rw [hfind] at hstep
    dsimp only at hstep
    by_cases hzip : (bf.fileExtension.map jsToLower == some "zip") = true
    · rw [if_pos hzip] at hstep
      have h2 := Except.ok.inj hstep
      rw [← h2]
      exact zipEntriesFold_raw_keyshape lib pfx _ acc hacc
    · rw [if_neg hzip] at hstep
      by_cases hgz : (bf.fileExtension.map jsToLower == some "gz") = true
      · rw [if_pos hgz] at hstep
        have h2 := Except.ok.inj hstep
        rw [← h2]
        intro kv hkv
        rcases jsAssign_mem_inv hkv with hold | hnew
        · exact hacc kv hold
        · exact ⟨idx, hnew⟩
      · rw [if_neg hgz] at hstep
        have h2 := Except.ok.inj hstep
        rw [← h2]
        exact hacc

theorem foldSteps_decompress_keyshape (lib : CompressionLib) (pfx : String)
    (item : Item) :
    ∀ (names : List String) (acc : Nat × List (String × BinFile)) (idx : Nat)
      (final : Nat × List (String × BinFile)),
      foldSteps (decompressStep lib pfx item) acc idx names = .ok final →
      KeyShape pfx acc.2 → KeyShape pfx final.2 := by
  intro names
  induction names with
  | nil =>
    intro acc idx final hfold hacc
    have := Except.ok.inj hfold
    rw [← this]
    exact hacc
  | cons n rest ih =>
    intro acc idx final hfold hacc
    rw [foldSteps] at hfold
    cases hstep : decompressStep lib pfx item acc idx n with
    | error e => rw [hstep] at hfold; exact absurd hfold (by simp)
    | ok acc2 =>
      rw [hstep] at hfold
      exact ih acc2 (idx + 1) final hfold
        (decompressStep_keyshape lib pfx item acc acc2 idx n hstep hacc)

/-- C10: in the decompress operation, an input field whose extension
(lower-cased) is neither `zip` nor `gz` contributes nothing and raises no
error; a `zip` field unpacks exactly its non-`__MACOSX` entries, numbered
by the running per-item zip counter; a `gz` field produces the single
field numbered by its input-field index; and consequently every binary
field name the operation outputs is the output prefix followed by a
counter. -/
theorem c10_decompress_naming :
    (∀ (lib : CompressionLib) (pfx : String) (item : Item)
        (acc : Nat × List (String × BinFile)) (idx : Nat) (name : String)
        (bf : BinFile),
        jsFind item.binary name = some bf →
        bf.fileExtension.map jsToLower ≠ some "zip" →
        bf.fileExtension.map jsToLower ≠ some "gz" →
        decompressStep lib pfx item acc idx name = .ok acc) ∧
    (∀ (lib : CompressionLib) (pfx : String) (item : Item)
        (acc : Nat × List (String × BinFile)) (idx : Nat) (name : String)
        (bf : BinFile),
        jsFind item.binary name = some bf →
        bf.fileExtension.map jsToLower = some "zip" →
        decompressStep lib pfx item acc idx name =
          .ok (zipEntriesFold lib pfx
            ((lib.unzipF bf.buffer).filter
              (fun kv => !jsIncludes kv.1 "__MACOSX")) acc)) ∧
    (∀ (lib : CompressionLib) (pfx : String) (item : Item)
        (acc : Nat × List (String × BinFile)) (idx : Nat) (name : String)
        (bf : BinFile),
        jsFind item.binary name = some bf →
        bf.fileExtension.map jsToLower ≠ some "zip" →
        bf.fileExtension.map jsToLower = some "gz" →
        ∃ d : BinFile,
          decompressStep lib pfx item acc idx name =
            .ok (acc.1, jsAssign acc.2 (pfx ++ decStr idx) d)) ∧
    (∀ (lib : CompressionLib) (params : CompressionParams) (i : Nat)
        (item : Item) (outs : List Item),
        decompressItem lib params i item = .ok outs →
        ∀ out ∈ outs, ∀ kv ∈ out.binary,
          ∃ k : Nat, kv.1 = params.outputPrefixParam ++ decStr k) := by
  refine ⟨?_, ?_, ?_, ?_⟩
  · intro lib pfx item acc idx name bf hfind hzip hgz
    unfold decompressStep
    rw [hfind]
    dsimp only
    rw [if_neg (by simpa using hzip), if_neg (by simpa using hgz)]
  · intro lib pfx item acc idx name bf hfind hzip
    unfold decompressStep
    rw [hfind]
    dsimp only
    rw [if_pos (by simpa using hzip)]
    unfold zipEntriesFold
    rw [foldl_skip_eq_filter_foldl
      (fun kv : String × List Nat => jsIncludes kv.1 "__MACOSX")
      (fun st kv => (st.1 + 1, jsAssign st.2 (pfx ++ decStr st.1)
        (prepareBinaryData lib kv.2 (some kv.1))))]
  · intro lib pfx item acc idx name bf hfind hzip hgz
    unfold decompressStep
    rw [hfind]
    dsimp only
    rw [if_neg (by simpa using hzip), if_pos (by simpa using hgz)]
    exact ⟨_, rfl⟩
  · intro lib params i item outs hout out hmem kv hkv
    unfold decompressItem at hout
    dsimp only at hout
    cases hfold : foldSteps
        (decompressStep lib params.outputPrefixParam item) (0, []) 0
        (splitBinaryNames params.binaryPropertyName) with
    | error e => rw [hfold] at hout; exact absurd hout (by simp)
    | ok accF =>
      rw [hfold] at hout
      have houts := Except.ok.inj hout
      rw [← houts] at hmem
      rw [List.mem_singleton] at hmem
      subst hmem
      exact foldSteps_decompress_keyshape lib params.outputPrefixParam item
        (splitBinaryNames params.binaryPropertyName) (0, []) 0 accF hfold
        (by intro kv2 hkv2; simp at hkv2) kv hkv

/-- A concrete stand-in for the external codec/mime libraries. -/
def sampleLib : CompressionLib :=
  { gzipF := fun b => 31 :: b
    gunzipF := fun b => b.drop 1
    unzipF := fun _ => [("a.txt", [1]), ("__MACOSX/a.txt", [2]), ("b.txt", [3])]
    zipF := fun _ => [80]
    prepareMime := fun _ => "application/octet-stream"
    prepareExt := fun _ => some "bin"
    mimeExtension := fun _ => some "bin" }

/-- A zip binary field. -/
def zipBin : BinFile :=
  { fileName := some "arch.zip", fileExtension := some "zip",
    mimeType := "application/zip", buffer := [9] }

/-- A gz binary field. -/
def gzBin : BinFile :=
  { fileName := some "f.txt.gz", fileExtension := some "gz",
    mimeType := "application/gzip", buffer := [9, 9] }

/-- A plain-text binary field (neither zip nor gz). -/
def txtBin : BinFile :=
  { fileName := some "f.txt", fileExtension := some "txt",
    mimeType := "text/plain", buffer := [7] }

/-- An item holding `zipBin` under `data`. -/
def zipItem : Item :=
  { json := JsVal.num 1, binary := [("data", zipBin)], pairedItem := none }

/-- An item holding `gzBin` under `data`. -/
def gzItem : Item :=
  { json := JsVal.num 2, binary := [("data", gzBin)], pairedItem := none }

/-- An item holding `txtBin` under `data`. -/
def txtItem : Item :=
  { json := JsVal.num 3, binary := [("data", txtBin)], pairedItem := none }

/-- Concrete decompress parameters. -/
def decompressParamsFix : CompressionParams :=
  { operation := "decompress", binaryPropertyName := "data", outputFormat := "",
    fileName := "", binaryPropertyOutput := "data",
    outputPrefixParam := "file_" }

/-- What `decompressItem` produces for `zipItem` under `sampleLib`. -/
def decompressedZipOut : List Item :=
  [{ json := JsVal.num 1
     binary :=
       [("file_0",
         { fileName := some "a.txt", fileExtension := some "bin",
           mimeType := "application/octet-stream", buffer := [1] }),
        ("file_1",
         { fileName := some "b.txt", fileExtension := some "bin",
           mimeType := "application/octet-stream", buffer := [3] })]
     pairedItem := some 0 }]

/-- Witness for C10 at concrete fields: a `txt` field contributes nothing,
a `zip` field unpacks its non-`__MACOSX` entries, a `gz` field lands under
its input index, and all names of a concrete decompressed item have the
prefix-counter shape. -/
theorem c10_decompress_naming_witness :
    decompressStep sampleLib "file_" txtItem (0, []) 0 "data" = .ok (0, []) ∧
    decompressStep sampleLib "file_" zipItem (0, []) 0 "data" =
      .ok (zipEntriesFold sampleLib "file_"
        ((sampleLib.unzipF zipBin.buffer).filter
          (fun kv => !jsIncludes kv.1 "__MACOSX")) (0, [])) ∧
    (∃ d : BinFile,
      decompressStep sampleLib "file_" gzItem (0, []) 0 "data" =
        .ok ((0, ([] : List (String × BinFile))).1,
          jsAssign (0, ([] : List (String × BinFile))).2
            ("file_" ++ decStr 0) d)) ∧
    (∀ out ∈ decompressedZipOut, ∀ kv ∈ out.binary,
      ∃ k : Nat, kv.1 = decompressParamsFix.outputPrefixParam ++ decStr k) :=
  ⟨c10_decompress_naming.1 sampleLib "file_" txtItem (0, []) 0 "data" txtBin
      rfl (by decide) (by decide),
   c10_decompress_naming.2.1 sampleLib "file_" zipItem (0, []) 0 "data" zipBin
      rfl (by decide),
   c10_decompress_naming.2.2.1 sampleLib "file_" gzItem (0, []) 0 "data" gzBin
      rfl (by decide) (by decide),
   c10_decompress_naming.2.2.2 sampleLib decompressParamsFix 0 zipItem
      decompressedZipOut rfl⟩

/-- The binary file the gzip-compress branch stores for one input field:
the gzipped buffer under `<first dot-segment of the input file name>.gzip`. -/
def gzOutF (lib : CompressionLib) (bf : BinFile) : BinFile :=
  prepareBinaryData lib (lib.gzipF bf.buffer)
    (some (optInterp (bf.fileName.map (fun s => (jsSplitChar '.' s).headD ""))
      ++ ".gzip"))

/-- Every key of the object is `prefix + <counter>` for a counter below
`n`. -/
def KeyBound (pfx : String) (n : Nat) (o : List (String × BinFile)) : Prop :=
  ∀ kv ∈ o, ∃ j, j < n ∧ kv.1 = pfx ++ decStr j

theorem KeyBound_fresh {pfx : String} {n : Nat} {o : List (String × BinFile)}
    (h : KeyBound pfx n o) : ∀ kv ∈ o, kv.1 ≠ pfx ++ decStr n := by
  intro kv hkv hcontra
  obtain ⟨j, hj, he⟩ := h kv hkv
  rw [he] at hcontra
  exact absurd (decStr_append_left_injective pfx hcontra) (Nat.ne_of_lt hj)

theorem compressStep_gzip_eq (lib : CompressionLib)
    (params : CompressionParams) (item : Item)
    (hfmt : params.outputFormat = "gzip")
    (acc : List (String × (List Nat × Nat)) × List (String × BinFile))
    (idx : Nat) (name : String) (bf : BinFile)
    (hfind : jsFind item.binary name = some bf) :
    compressStep lib params item acc idx name =
      .ok (acc.1, jsAssign acc.2 (params.outputPrefixParam ++ decStr idx)
        (gzOutF lib bf)) := by
  unfold compressStep
  rw [hfind]
  dsimp only
  rw [if_neg (by rw [hfmt]; simp), if_pos (by rw [hfmt]; rfl)]
  rfl

theorem foldSteps_compress_gzip_persist (lib : CompressionLib)
    (params : CompressionParams) (item : Item)
    (hfmt : params.outputFormat = "gzip") :
    ∀ (names : List String) (idx0 : Nat)
      (acc final : List (String × (List Nat × Nat)) × List (String × BinFile))
      (key : String) (v : BinFile),
      foldSteps (compressStep lib params item) acc idx0 names = .ok final →
      (key, v) ∈ acc.2 →
      (∃ j, j < idx0 ∧ key = params.outputPrefixParam ++ decStr j) →
      (key, v) ∈ final.2 := by
  intro names
  induction names with
  | nil =>
    intro idx0 acc final key v hfold hmem _
    have := Except.ok.inj hfold
    rw [← this]
    exact hmem
  | cons n0 rest ih =>
    intro idx0 acc final key v hfold hmem hkey
    rw [foldSteps] at hfold
    cases hfind : jsFind item.binary n0 with
    | none =>
      rw [show compressStep lib params item acc idx0 n0 = .error
          ("This operation expects the node's input data to contain a binary file, but none was found [" ++ n0 ++ "]") by
        unfold compressStep; rw [hfind]] at hfold
      exact absurd hfold (by simp)
    | some bf0 =>
      rw [compressStep_gzip_eq lib params item hfmt acc idx0 n0 bf0 hfind]
        at hfold
      obtain ⟨j, hj, hkeyeq⟩ := hkey
      have hne : key ≠ params.outputPrefixParam ++ decStr idx0 := by
        rw [hkeyeq]
        intro hcontra
        exact absurd (decStr_append_left_injective _ hcontra) (Nat.ne_of_lt hj)
      refine ih (idx0 + 1) _ final key v hfold ?_ ⟨j, by omega, hkeyeq⟩
      exact jsAssign_mem_of_ne hmem hne _

theorem foldSteps_compress_gzip (lib : CompressionLib)
    (params : CompressionParams) (item : Item)
    (hfmt : params.outputFormat = "gzip") :
    ∀ (names : List String) (idx0 : Nat)
      (acc final : List (String × (List Nat × Nat)) × List (String × BinFile)),
      foldSteps (compressStep lib params item) acc idx0 names = .ok final →
      KeyBound params.outputPrefixParam idx0 acc.2 →
      KeyBound params.outputPrefixParam (idx0 + names.length) final.2 ∧
      (∀ (k : Nat) (nk : String) (bf : BinFile),
        names.get? k = some nk →
        jsFind item.binary nk = some bf →
        (params.outputPrefixParam ++ decStr (idx0 + k), gzOutF lib bf) ∈
          final.2) := by
  intro names
  induction names with
  | nil =>
    intro idx0 acc final hfold hb
    have := Except.ok.inj hfold
    rw [← this]
    exact ⟨hb, by intro k nk bf hk; simp at hk⟩
  | cons n0 rest ih =>
    intro idx0 acc final hfold hb
    rw [foldSteps] at hfold
    cases hfind : jsFind item.binary n0 with
    | none =>
      rw [show compressStep lib params item acc idx0 n0 = .error
          ("This operation expects the node's input data to contain a binary file, but none was found [" ++ n0 ++ "]") by
        unfold compressStep; rw [hfind]] at hfold
      exact absurd hfold (by simp)
    | some bf0 =>
      rw [compressStep_gzip_eq lib params item hfmt acc idx0 n0 bf0 hfind]
        at hfold
      have hassign : jsAssign acc.2 (params.outputPrefixParam ++ decStr idx0)
          (gzOutF lib bf0) =
          acc.2 ++ [(params.outputPrefixParam ++ decStr idx0, gzOutF lib bf0)] :=
        jsAssign_fresh _ _ _ (KeyBound_fresh hb)
      have hb2 : KeyBound params.outputPrefixParam (idx0 + 1)
          (acc.1, jsAssign acc.2 (params.outputPrefixParam ++ decStr idx0)
            (gzOutF lib bf0)).2 := by
        intro kv hkv
        rcases jsAssign_mem_inv hkv with hold | hnew
        · obtain ⟨j, hj, he⟩ := hb kv hold
          exact ⟨j, by omega, he⟩
        · exact ⟨idx0, by omega, hnew⟩
      obtain ⟨hbf, hmemf⟩ := ih (idx0 + 1) _ final hfold hb2
      constructor
      · intro kv hkv
        obtain ⟨j, hj, he⟩ := hbf kv hkv
        exact ⟨j, by simpa [Nat.add_comm, Nat.add_left_comm] using hj, he⟩
      · intro k nk bf hk hfindk
        cases k with
        | zero =>
          simp only [List.get?_cons_zero, Option.some.injEq] at hk
          subst hk
          rw [hfindk] at hfind
          have hbf0 : bf = bf0 := by
            simpa using hfind
          subst hbf0
          refine foldSteps_compress_gzip_persist lib params item hfmt rest
            (idx0 + 1) _ final _ _ hfold ?_ ⟨idx0, by omega, by rw [Nat.add_zero]⟩
          rw [Nat.add_zero]
          dsimp only
          rw [hassign]
          exact List.mem_append_right _ (List.mem_singleton.mpr rfl)
        | succ k2 =>
          simp only [List.get?_cons_succ] at hk
          have := hmemf k2 nk bf hk hfindk
          have harith : idx0 + 1 + k2 = idx0 + (k2 + 1) := by omega
          rwa [harith] at this

theorem executeItems_gzip_get (lib : CompressionLib)
    (params : CompressionParams)
    (hop : params.operation = "compress")
    (hfmt : params.outputFormat = "gzip") :
    ∀ (items : List Item) (i0 : Nat) (outs : List Item),
      executeItems lib params false i0 items = .ok outs →
      ∀ (j : Nat) (item : Item), items.get? j = some item →
        ∃ accF : List (String × (List Nat × Nat)) × List (String × BinFile),
          foldSteps (compressStep lib params item) ([], []) 0
            (splitBinaryNames params.binaryPropertyName) = .ok accF ∧
          outs.get? j =
            some { json := item.json, binary := accF.2,
                   pairedItem := some (i0 + j) } := by
  intro items
  induction items with
  | nil =>
    intro i0 outs hexec j item hj
    simp at hj
  | cons item0 rest ih =>
    intro i0 outs hexec j item hj
    rw [executeItems] at hexec
    have hproc : processItem lib params i0 item0 =
        (match foldSteps (compressStep lib params item0) ([], []) 0
            (splitBinaryNames params.binaryPropertyName) with
         | .error e => .error e
         | .ok accF =>
           .ok [{ json := item0.json, binary := accF.2,
                  pairedItem := some i0 }]) := by
      unfold processItem compressItem
      simp only [show (params.operation == "decompress") = false from by
          rw [hop]; rfl,
        show (params.operation == "compress") = true from by rw [hop]; rfl,
        show (params.outputFormat == "zip") = false from by rw [hfmt]; rfl,
        show (params.outputFormat == "gzip") = true from by rw [hfmt]; rfl,
        Bool.false_eq_true, if_false, if_true]
      cases hf : foldSteps (compressStep lib params item0) ([], []) 0
          (splitBinaryNames params.binaryPropertyName) with
      | error e => rfl
      | ok accF => simp
    rw [hproc] at hexec
    cases hf : foldSteps (compressStep lib params item0) ([], []) 0
        (splitBinaryNames params.binaryPropertyName) with
    | error e =>
      rw [hf] at hexec
      dsimp only at hexec
      exact absurd hexec (by simp)
    | ok accF =>
      rw [hf] at hexec
      dsimp only at hexec
      cases hrest : executeItems lib params false (i0 + 1) rest with
      | error e =>
        rw [hrest] at hexec
        exact absurd hexec (by simp)
      | ok tail =>
        rw [hrest] at hexec
        have houts : ({ json := item0.json, binary := accF.2,
                        pairedItem := some i0 } : Item) :: tail = outs := by
          simpa using hexec
        cases j with
        | zero =>
          simp only [List.get?_cons_zero, Option.some.injEq] at hj
          subst hj
          refine ⟨accF, hf, ?_⟩
          rw [← houts]
          simp
        | succ j2 =>
          simp only [List.get?_cons_succ] at hj
          obtain ⟨accF2, hfold2, hget2⟩ := ih (i0 + 1) tail hrest j2 item hj
          refine ⟨accF2, hfold2, ?_⟩
          rw [← houts]
          simp only [List.get?_cons_succ]
          rw [hget2]
          have harith : i0 + 1 + j2 = i0 + (j2 + 1) := by omega
          rw [harith]

/-- C5: for every input item of `execute` with operation `compress` and
output format `gzip`, and for each trimmed comma-separated input binary
field name at position `k` (whose field is present and carries a file
name), the output item for that input item stores, under the name
`outputPrefix + k`, the gzip of that field's buffer with file name
`<first dot-segment of the input file name>.gzip`, and passes the item's
json through unchanged. -/
theorem c5_compress_gzip :
    ∀ (lib : CompressionLib) (params : CompressionParams)
      (items outs : List Item) (i k : Nat) (item : Item) (nk : String)
      (bf : BinFile) (fn : String),
      params.operation = "compress" →
      params.outputFormat = "gzip" →
      Compression.execute lib params false items = .ok [outs] →
      items.get? i = some item →
      (splitBinaryNames params.binaryPropertyName).get? k = some nk →
      jsFind item.binary nk = some bf →
      bf.fileName = some fn →
      ∃ out, outs.get? i = some out ∧ out.json = item.json ∧
        (params.outputPrefixParam ++ decStr k,
         prepareBinaryData lib (lib.gzipF bf.buffer)
           (some ((jsSplitChar '.' fn).headD "" ++ ".gzip"))) ∈ out.binary := by
  intro lib params items outs i k item nk bf fn hop hfmt hexec hitem hname
    hfind hfn
  have hexec2 : executeItems lib params false 0 items = .ok outs := by
    unfold Compression.execute at hexec
    cases he : executeItems lib params false 0 items with
    | error e =>
      rw [he] at hexec
      exact absurd hexec (by simp)
    | ok r =>
      rw [he] at hexec
      have hr : r = outs := by simpa using hexec
      rw [hr]
  obtain ⟨accF, hfold, hget⟩ := executeItems_gzip_get lib params hop hfmt
    items 0 outs hexec2 i item hitem
  obtain ⟨hbound, hmem⟩ := foldSteps_compress_gzip lib params item hfmt
    (splitBinaryNames params.binaryPropertyName) 0 ([], []) accF hfold
    (by intro kv hkv; simp at hkv)
  refine ⟨{ json := item.json, binary := accF.2, pairedItem := some (0 + i) },
    hget, rfl, ?_⟩
  have hmem2 := hmem k nk bf hname hfind
  rw [Nat.zero_add] at hmem2
  have hout : gzOutF lib bf =
      prepareBinaryData lib (lib.gzipF bf.buffer)
        (some ((jsSplitChar '.' fn).headD "" ++ ".gzip")) := by
    unfold gzOutF
    rw [hfn]
    rfl
  rwa [hout] at hmem2

/-- Concrete compress parameters with gzip output. -/
def compressGzipParamsFix : CompressionParams :=
  { operation := "compress", binaryPropertyName := "data",
    outputFormat := "gzip", fileName := "", binaryPropertyOutput := "data",
    outputPrefixParam := "data" }

/-- What `execute` produces for `[txtItem]` under `sampleLib` and
`compressGzipParamsFix`. -/
def compressedGzipOut : List Item :=
  [{ json := JsVal.num 3
     binary :=
       [("data0",
         { fileName := some "f.gzip", fileExtension := some "bin",
           mimeType := "application/octet-stream", buffer := [31, 7] })]
     pairedItem := some 0 }]

/-- Witness for C5 at a concrete item and field. -/
theorem c5_compress_gzip_witness :
    ∃ out, compressedGzipOut.get? 0 = some out ∧ out.json = txtItem.json ∧
      (compressGzipParamsFix.outputPrefixParam ++ decStr 0,
       prepareBinaryData sampleLib (sampleLib.gzipF txtBin.buffer)
         (some ((jsSplitChar '.' "f.txt").headD "" ++ ".gzip"))) ∈ out.binary :=
  c5_compress_gzip sampleLib compressGzipParamsFix [txtItem] compressedGzipOut
    0 0 txtItem "data" txtBin "f.txt" rfl rfl rfl rfl rfl rfl rfl

end N8n
